import Mathlib

/-!
Verification development for the `provisioner` repository.

The definitions below are shallow embeddings of the TypeScript sources:

* manifest data model            — `src/scripts/lib/types.ts`
* validator                      — the `validateFile` revision embedded in
                                   `src/README.md` (lines 274-635), which is the
                                   revision carrying the reserved-name, `-p`
                                   suffix, health-check, routing and compose
                                   security checks
* resource quota table / client  — `src/scripts/lib/dokploy-client.ts`
* reconciler and batch driver    — `src/scripts/apply.ts`
* subdomain derivation           — `src/scripts/lib/subdomain.ts`
* auto-deploy gating             — `src/scripts/lib/auto-deploy.ts`
                                   (`src/unnamed/part_007`, final revision)
* compose generator              — `src/scripts/lib/compose/generator.ts`

External effects (the Dokploy HTTP API, the `gh` CLI, `Bun.env`) are modelled
explicitly: the remote control plane as a record of rows plus a schedule of
call outcomes (an empty schedule means every call succeeds), the environment
and org registry as lookup functions, and the `gh` interactions as two boolean
oracles for the secret and workflow steps.
-/

namespace Provisioner

/-! ## Kernel-computable string helpers

Models of the JavaScript string operations used by the sources, written over
the character list so that concrete witnesses evaluate inside the kernel. -/

/-- `s.toLowerCase()`. -/
def strToLower (s : String) : String := String.mk (s.data.map Char.toLower)

/-- `s.toUpperCase()`. -/
def strToUpper (s : String) : String := String.mk (s.data.map Char.toUpper)

/-- `s.endsWith(t)`. -/
def strEndsWith (s t : String) : Bool := decide (t.data <:+ s.data)

/-- `s.startsWith(t)`. -/
def strStartsWith (s t : String) : Bool := decide (t.data <+: s.data)

/-- Drop the last `n` characters. -/
def strDropRight (s : String) (n : Nat) : String :=
  String.mk (s.data.take (s.data.length - n))

/-- Split a character list at `/` separators. -/
def splitOnSlash : List Char → List (List Char)
  | [] => [[]]
  | x :: xs =>
    match splitOnSlash xs with
    | [] => [[]]
    | h :: t => if x = '/' then [] :: h :: t else (x :: h) :: t

/-! ## Manifest data model (`src/scripts/lib/types.ts`) -/

/-- `Resources.size` enum `"S" | "M" | "L"`. -/
inductive ResourceSize
  | S
  | M
  | L
deriving DecidableEq, Repr

/-- `GitHubSource` from `types.ts` (`owner`, `repo`, `branch`, optional `path`
and `composePath`). -/
structure GitHubSource where
  owner : String
  repo : String
  branch : String
  path : Option String := none
  composePath : Option String := none
deriving DecidableEq, Repr

/-- `DockerSource` from `types.ts`. -/
structure DockerSource where
  image : String
  tag : String
deriving DecidableEq, Repr

/-- `Source` from `types.ts`: the `type` tag together with the matching
payload.  The TypeScript interface carries `type` plus two optional payloads;
every code path guards `source.type === "github" && source.github` (and the
docker analogue), so the tagged union is the faithful shape. -/
inductive Source
  | github (g : GitHubSource)
  | docker (d : DockerSource)
deriving DecidableEq, Repr

/-- `Build` from `types.ts`.  The `type` field is named `btype` here because
`type` is reserved in Lean. -/
structure BuildSpec where
  btype : String
  dockerfile : Option String := none
  context : Option String := none
  args : Option (List (String × String)) := none
deriving DecidableEq, Repr

/-- `SecretRef` from `types.ts`. -/
structure SecretRef where
  name : String
  secret : String
deriving DecidableEq, Repr

/-- `Env` from `types.ts`: a string map with the reserved `secretRefs` key.
`statics` holds the plain `KEY: value` entries in insertion order (keys other
than `secretRefs` whose value is a string); a missing `secretRefs` key behaves
exactly like an empty list in every consumer, so it is a plain list here. -/
structure EnvSpec where
  statics : List (String × String) := []
  secretRefs : List SecretRef := []
deriving DecidableEq, Repr

/-- `Port` from `types.ts`. -/
structure PortSpec where
  containerPort : Nat
deriving DecidableEq, Repr

/-- `HealthCheck` from `types.ts`. -/
structure HealthCheckSpec where
  path : String
  port : Nat
  intervalSeconds : Option Nat := none
deriving DecidableEq, Repr

/-- `ApplicationSpec` from `types.ts`; `resources` holds `resources.size` and
`routingHostnames` holds `routing?.hostnames`. -/
structure AppSpec where
  source : Source
  build : Option BuildSpec := none
  resources : ResourceSize
  env : Option EnvSpec := none
  ports : List PortSpec := []
  healthCheck : Option HealthCheckSpec := none
  routingHostnames : Option (List String) := none
deriving DecidableEq, Repr

/-- `Ingress` from `types.ts`. -/
structure IngressSpec where
  service : String
  port : Nat
deriving DecidableEq, Repr

/-- `ComposeSpec` from `types.ts`. -/
structure ComposeSpec where
  source : Source
  env : Option EnvSpec := none
  ingress : IngressSpec
deriving DecidableEq, Repr

/-- `Metadata` from `types.ts`. -/
structure Metadata where
  name : String
  description : Option String := none
  maintainer : String := ""
deriving DecidableEq, Repr

/-- The `kind` discriminator together with the matching `spec` payload.
`apply.ts` dispatches on `config.kind` with an `Unknown kind` fallback. -/
inductive ConfigSpec
  | app (s : AppSpec)
  | composeStack (s : ComposeSpec)
  | unknownKind (kind : String)
deriving DecidableEq, Repr

/-- `ProvisionConfig` from `types.ts`. -/
structure ProvisionConfig where
  metadata : Metadata
  spec : ConfigSpec
deriving DecidableEq, Repr

/-! ## Validator (`validateFile` revision embedded in `src/README.md`) -/

/-- `ValidationError` from `types.ts` (the constant `type: "error"` tag is
omitted). -/
structure ValidationError where
  message : String
  path : Option String := none
deriving DecidableEq, Repr

/-- `ValidationWarning` from `types.ts`. -/
structure ValidationWarning where
  message : String
  path : Option String := none
deriving DecidableEq, Repr

/-- `ValidationResult` from `types.ts`. -/
structure ValidationResult where
  valid : Bool
  errors : List ValidationError
  warnings : List ValidationWarning
deriving DecidableEq, Repr

/-- `ComposeService` as declared at the top of the README validator: the
dangerous docker-compose options of one nested service.  Optional list-valued
fields are plain lists (an absent field and an empty list take the same
branches in `checkDangerousOptions`); `sysctls` may be a map or an array in
TypeScript, only its size is ever inspected, so entries are pairs. -/
structure ComposeServiceV where
  privileged : Option Bool := none
  cap_add : List String := []
  devices : List String := []
  network_mode : Option String := none
  pid : Option String := none
  ipc : Option String := none
  security_opt : List String := []
  sysctls : List (String × String) := []
  userns_mode : Option String := none
  cgroup_parent : Option String := none
deriving DecidableEq, Repr

/-- `ComposeFile` as declared in the README validator. -/
structure ComposeFileV where
  services : List (String × ComposeServiceV) := []
deriving DecidableEq, Repr

/-- The `dangerousCaps` set of `checkDangerousOptions`. -/
def dangerousCaps : List String :=
  ["SYS_ADMIN", "SYS_PTRACE", "SYS_RAWIO", "SYS_MODULE", "DAC_READ_SEARCH",
   "NET_ADMIN", "NET_RAW", "MKNOD", "AUDIT_WRITE", "SETFCAP"]

/-- `opt.includes("unconfined")` — JavaScript substring containment. -/
def containsUnconfined (opt : String) : Bool :=
  decide ("unconfined".toList <:+: opt.toList)

/-- `checkDangerousOptions(serviceName, service)` from the README validator
(lines 530-635): returns the `(errors, warnings)` produced for one nested
compose service, in source order.  The `cgroup_parent` branch tests JavaScript
truthiness, so an explicit empty string does not trigger it. -/
def checkDangerousOptions (serviceName : String) (service : ComposeServiceV) :
    List ValidationError × List ValidationWarning :=
  let e1 : List ValidationError :=
    if service.privileged = some true then
      [{ message := "Service \x27" ++ serviceName ++
          "\x27 uses privileged mode - this allows container escape" }]
    else []
  let e2 : List ValidationError :=
    if service.network_mode = some "host" then
      [{ message := "Service \x27" ++ serviceName ++
          "\x27 uses host network mode - this bypasses network isolation" }]
    else []
  let e3 : List ValidationError :=
    if service.pid = some "host" then
      [{ message := "Service \x27" ++ serviceName ++
          "\x27 uses host PID namespace - this exposes host processes" }]
    else []
  let e4 : List ValidationError :=
    if service.ipc = some "host" then
      [{ message := "Service \x27" ++ serviceName ++
          "\x27 uses host IPC namespace - this allows host IPC access" }]
    else []
  let e5 : List ValidationError :=
    if service.userns_mode = some "host" then
      [{ message := "Service \x27" ++ serviceName ++
          "\x27 uses host user namespace" }]
    else []
  let e6 : List ValidationError :=
    if (service.cgroup_parent.getD "") ≠ "" then
      [{ message := "Service \x27" ++ serviceName ++
          "\x27 sets cgroup_parent - this can bypass resource limits" }]
    else []
  let e7 : List ValidationError :=
    service.cap_add.filterMap fun cap =>
      if dangerousCaps.contains (strToUpper cap) then
        some { message := "Service \x27" ++ serviceName ++
            "\x27 adds dangerous capability \x27" ++ cap ++ "\x27" }
      else none
  let e8 : List ValidationError :=
    if service.devices.length > 0 then
      [{ message := "Service \x27" ++ serviceName ++
          "\x27 mounts host devices - this exposes hardware" }]
    else []
  let e9 : List ValidationError :=
    service.security_opt.filterMap fun opt =>
      if containsUnconfined opt then
        some { message := "Service \x27" ++ serviceName ++
            "\x27 uses unconfined security option \x27" ++ opt ++ "\x27" }
      else none
  let e10 : List ValidationError :=
    if service.sysctls.length > 0 then
      [{ message := "Service \x27" ++ serviceName ++
          "\x27 modifies kernel sysctls - this affects host kernel" }]
    else []
  (e1 ++ e2 ++ e3 ++ e4 ++ e5 ++ e6 ++ e7 ++ e8 ++ e9 ++ e10, [])

/-- The per-service loop of the README validator (lines 493-502): every
service of the fetched compose file contributes its dangerous-option errors,
in file order. -/
def composeServiceErrors (services : List (String × ComposeServiceV)) :
    List ValidationError :=
  services.flatMap fun p => (checkDangerousOptions p.1 p.2).1

/-- `validateFile` from the README validator, restricted to its pure part.

Inputs standing for external effects:
* `schemaErrors` — the Ajv structural errors for this config;
* `reserved` / `blockedPre` — `config/reserved-subdomains.yaml`;
* `fetchedCompose` — the compose file fetched when the config is a
  `ComposeStack` and `VALIDATE_COMPOSE` is enabled (`none` when the flag is
  off).  The network-gated `VALIDATE_SOURCES` repository checks are modelled
  with the flag unset, as in the default CI configuration.

Errors and warnings are accumulated in source order and
`valid := errors.length == 0` exactly as in the source. -/
def validateFileCore (schemaErrors : List ValidationError)
    (reserved : List String) (blockedPre : List String)
    (config : ProvisionConfig) (fetchedCompose : Option ComposeFileV) :
    ValidationResult :=
  let subdomainName := strToLower config.metadata.name
  -- Reserved subdomain check
  let reservedErrs : List ValidationError :=
    if subdomainName ≠ "" ∧ reserved.contains subdomainName then
      [{ message := "Subdomain \x27" ++ subdomainName ++
          "\x27 is reserved for platform use", path := some "/metadata/name" }]
    else []
  -- Blocked prefix check (the loop breaks after the first match)
  let prefixErrs : List ValidationError :=
    if subdomainName ≠ "" then
      match blockedPre.find? (fun pre => strStartsWith subdomainName pre) with
      | some pre =>
          [{ message := "Subdomain \x27" ++ subdomainName ++
              "\x27 matches blocked prefix \x27" ++ pre ++ "\x27",
             path := some "/metadata/name" }]
      | none => []
    else []
  -- Source warnings (default branch, mutable tag); the VALIDATE_SOURCES
  -- network checks are disabled in this configuration.
  let sourceWarns : List ValidationWarning :=
    match config.spec with
    | .app s =>
        (match s.source with
         | .github g =>
             if g.branch = "main" ∨ g.branch = "master" then
               [{ message := "Using default branch \x27" ++ g.branch ++
                   "\x27 - consider using a specific release branch",
                  path := some "/spec/source/github/branch" }]
             else []
         | .docker d =>
             if d.tag = "latest" then
               [{ message := "Using \x27latest\x27 tag may cause unexpected updates - consider using a specific version",
                  path := some "/spec/source/docker/tag" }]
             else [])
    | .composeStack s =>
        (match s.source with
         | .github g =>
             if g.branch = "main" ∨ g.branch = "master" then
               [{ message := "Using default branch \x27" ++ g.branch ++
                   "\x27 - consider using a specific release branch",
                  path := some "/spec/source/github/branch" }]
             else []
         | .docker d =>
             if d.tag = "latest" then
               [{ message := "Using \x27latest\x27 tag may cause unexpected updates - consider using a specific version",
                  path := some "/spec/source/docker/tag" }]
             else [])
    | .unknownKind _ => []
  -- Health check requirement for Application (README revision: an error)
  let healthErrs : List ValidationError :=
    match config.spec with
    | .app s =>
        (match s.healthCheck with
         | none =>
             [{ message := "healthCheck is required for Application services",
                path := some "/spec/healthCheck" }]
         | some hc =>
             if s.ports.any (fun p => p.containerPort = hc.port) then []
             else
               [{ message := "healthCheck.port must match one of spec.ports.containerPort",
                  path := some "/spec/healthCheck/port" }])
    | _ => []
  -- App name rule: prevent double "-p"
  let suffixErrs : List ValidationError :=
    if subdomainName ≠ "" ∧ strEndsWith subdomainName "-p" = true then
      [{ message := "App name must not end with \x27-p\x27 because \x27-p\x27 is appended automatically",
         path := some "/metadata/name" }]
    else []
  -- Routing hostname validation
  let routingErrs : List ValidationError :=
    match config.spec with
    | .app s =>
        (match s.routingHostnames with
         | some hosts =>
             hosts.filterMap fun host =>
               if strEndsWith host ".apps.quickable.co" then none
               else
                 let msg := "Routing hostname \x27" ++ host ++
                   "\x27 must end with .apps.quickable.co"
                 some { message := msg, path := some "/spec/routing/hostnames" }
         | none => [])
    | _ => []
  -- ComposeStack: dangerous options of the fetched compose file
  let composeErrs : List ValidationError :=
    match config.spec, fetchedCompose with
    | .composeStack _, some cf => composeServiceErrors cf.services
    | _, _ => []
  let errors := schemaErrors ++ reservedErrs ++ prefixErrs ++ healthErrs ++
    suffixErrs ++ routingErrs ++ composeErrs
  { valid := errors.isEmpty, errors := errors, warnings := sourceWarns }

/-! ## Resource quotas (`src/scripts/lib/dokploy-client.ts`, lines 15-19) -/

/-- One row of the `QUOTAS` table: raw numeric strings as sent to the API
(`memoryLimit` in bytes, `cpuLimit` in nanocpus). -/
structure Quota where
  cpuLimit : String
  memoryLimit : String
deriving DecidableEq, Repr

/-- The fixed `QUOTAS` table of `dokploy-client.ts`:
S = 0.5 CPU / 512MB, M = 1 CPU / 1GB, L = 2 CPU / 2GB. -/
def QUOTAS : ResourceSize → Quota
  | .S => { cpuLimit := "500000000", memoryLimit := "536870912" }
  | .M => { cpuLimit := "1000000000", memoryLimit := "1073741824" }
  | .L => { cpuLimit := "2000000000", memoryLimit := "2147483648" }

/-- The `application.update` body built by `setResourceLimits` in
`dokploy-client.ts` (lines 293-306). -/
structure ResourceLimitsRequest where
  applicationId : Nat
  cpuLimit : String
  memoryLimit : String
deriving DecidableEq, Repr

/-- `setResourceLimits` looks up `QUOTAS[size]` and sends exactly these three
fields; nothing else from the manifest enters the request. -/
def setResourceLimitsRequest (applicationId : Nat) (size : ResourceSize) :
    ResourceLimitsRequest :=
  { applicationId := applicationId,
    cpuLimit := (QUOTAS size).cpuLimit,
    memoryLimit := (QUOTAS size).memoryLimit }

/-! ## Subdomain derivation (`src/scripts/lib/subdomain.ts`) -/

/-- `path.basename`: the last `/`-separated component. -/
def basenameStr (p : String) : String :=
  ((((splitOnSlash p.data).map String.mk).getLast?).getD p)

/-- `path.dirname`: the path without its last component. -/
def dirnameStr (p : String) : String :=
  let parts := (splitOnSlash p.data).map String.mk
  if parts.length ≤ 1 then "." else String.intercalate "/" parts.dropLast

/-- `getSubdomainFromPath` from `subdomain.ts`: `apps/hello.yaml → hello`,
`apps/hello/provision.yaml → hello` (the `.yaml` suffix strip models the
`replace(/\.yaml$/, "")` regex). -/
def getSubdomainFromPath (filePath : String) : String :=
  let filename := basenameStr filePath
  if filename = "provision.yaml" then
    basenameStr (dirnameStr filePath)
  else if strEndsWith filename ".yaml" then
    strDropRight filename 5
  else
    filename

/-! ## Remote control-plane state

The Dokploy API (spec interface §6) is modelled as rows plus a `schedule` of
pending call outcomes: each remote call consumes the head of the schedule and
fails when it is `false`; an exhausted (empty) schedule means every remaining
call succeeds.  Object ids are allocated from the `nextId` counter. -/

/-- A remote project row (`project.create` result). -/
structure RProject where
  projectId : Nat
  name : String
  description : String
deriving DecidableEq, Repr

/-- A remote environment row (the default environment returned by
`project.create`). -/
structure REnvRow where
  environmentId : Nat
  projectId : Nat
deriving DecidableEq, Repr

/-- A remote application row, with the fields the embedded claims inspect
(`application.update` limits and the `application.saveEnvironment` blob). -/
structure RApp where
  applicationId : Nat
  name : String
  environmentId : Nat
  cpuLimit : Option String := none
  memoryLimit : Option String := none
  env : Option String := none
deriving DecidableEq, Repr

/-- A remote compose row (`compose.create` result). -/
structure RCompose where
  composeId : Nat
  name : String
  environmentId : Nat
  env : Option String := none
deriving DecidableEq, Repr

/-- A remote domain row (`domain.create`); `ownerId` is the applicationId or
composeId the domain is attached to. -/
structure RDomain where
  domainId : Nat
  host : String
  port : Nat
  ownerId : Nat
deriving DecidableEq, Repr

/-- The remote control-plane state. -/
structure Rem where
  nextId : Nat := 0
  projects : List RProject := []
  envs : List REnvRow := []
  apps : List RApp := []
  composes : List RCompose := []
  domains : List RDomain := []
  schedule : List Bool := []
deriving DecidableEq, Repr

/-- Consume the next scheduled call outcome (empty schedule = success). -/
def takeCall (s : Rem) : Bool × Rem :=
  match s.schedule with
  | [] => (true, s)
  | b :: rest => (b, { s with schedule := rest })

/-- The error message raised by `DokployClient.request` on a non-ok
response (its status detail is irrelevant to the claims). -/
def apiError : String := "Dokploy API error"

/-- `project.create`: returns the new project together with its default
environment (two fresh ids). -/
def createProject (s : Rem) (name description : String) :
    Except String (RProject × REnvRow) × Rem :=
  match takeCall s with
  | (false, s') => (.error apiError, s')
  | (true, s') =>
      let p : RProject := { projectId := s'.nextId, name := name, description := description }
      let e : REnvRow := { environmentId := s'.nextId + 1, projectId := s'.nextId }
      (.ok (p, e),
        { s' with nextId := s'.nextId + 2,
                  projects := s'.projects ++ [p],
                  envs := s'.envs ++ [e] })

/-- `application.create`: a fresh application row in the given environment. -/
def createApplication (s : Rem) (name : String) (environmentId : Nat) :
    Except String RApp × Rem :=
  match takeCall s with
  | (false, s') => (.error apiError, s')
  | (true, s') =>
      let a : RApp := { applicationId := s'.nextId, name := name, environmentId := environmentId }
      (.ok a, { s' with nextId := s'.nextId + 1, apps := s'.apps ++ [a] })

/-- `compose.create`: a fresh compose row in the given environment. -/
def createCompose (s : Rem) (name : String) (environmentId : Nat) :
    Except String RCompose × Rem :=
  match takeCall s with
  | (false, s') => (.error apiError, s')
  | (true, s') =>
      let c : RCompose := { composeId := s'.nextId, name := name, environmentId := environmentId }
      (.ok c, { s' with nextId := s'.nextId + 1, composes := s'.composes ++ [c] })

/-- A remote call whose body does not touch the rows this model tracks
(`application.update` for the source type, `application.saveDockerProvider`,
`application.saveGitProvider`, `application.saveBuildType`,
`application.deploy`, the compose provider calls and `compose.deploy`). -/
def voidCall (s : Rem) : Except String Unit × Rem :=
  match takeCall s with
  | (false, s') => (.error apiError, s')
  | (true, s') => (.ok (), s')

/-- `application.update` with the `QUOTAS[size]` limits
(`setResourceLimits` in `dokploy-client.ts`). -/
def setResourceLimitsCall (s : Rem) (applicationId : Nat) (size : ResourceSize) :
    Except String Unit × Rem :=
  match takeCall s with
  | (false, s') => (.error apiError, s')
  | (true, s') =>
      (.ok (), { s' with apps := s'.apps.map fun a =>
          if a.applicationId = applicationId then
            { a with cpuLimit := some (QUOTAS size).cpuLimit,
                     memoryLimit := some (QUOTAS size).memoryLimit }
          else a })

/-- `application.saveEnvironment`: store the newline-joined KEY=VALUE blob. -/
def configureEnvironmentCall (s : Rem) (applicationId : Nat) (blob : String) :
    Except String Unit × Rem :=
  match takeCall s with
  | (false, s') => (.error apiError, s')
  | (true, s') =>
      (.ok (), { s' with apps := s'.apps.map fun a =>
          if a.applicationId = applicationId then { a with env := some blob } else a })

/-- `compose.saveEnvironment`. -/
def configureComposeEnvironmentCall (s : Rem) (composeId : Nat) (blob : String) :
    Except String Unit × Rem :=
  match takeCall s with
  | (false, s') => (.error apiError, s')
  | (true, s') =>
      (.ok (), { s' with composes := s'.composes.map fun c =>
          if c.composeId = composeId then { c with env := some blob } else c })

/-- `domain.create` attached to an application or compose. -/
def createDomain (s : Rem) (ownerId : Nat) (host : String) (port : Nat) :
    Except String RDomain × Rem :=
  match takeCall s with
  | (false, s') => (.error apiError, s')
  | (true, s') =>
      let d : RDomain := { domainId := s'.nextId, host := host, port := port, ownerId := ownerId }
      (.ok d, { s' with nextId := s'.nextId + 1, domains := s'.domains ++ [d] })

/-! ## Org registry and auto-deploy (`github-orgs.ts`, `auto-deploy.ts`) -/

/-- `OrgConfig` from `github-orgs.ts`. -/
structure OrgConfig where
  sshKeyId : String
deriving DecidableEq, Repr

/-- `getOrgConfig(owner)`: case-insensitive lookup in the org registry. -/
def getOrgConfig (orgs : List (String × OrgConfig)) (owner : String) :
    Option OrgConfig :=
  ((orgs.find? fun p => strToLower p.1 = strToLower owner).map fun p => p.2)

/-- The outcomes of the external `gh` CLI interactions of `auto-deploy.ts`:
`secretOk` stands for "the deploy secret exists or was installed", and
`workflowOk` for "the workflow file was written successfully". -/
structure GhEnv where
  secretOk : Bool
  workflowOk : Bool
deriving DecidableEq, Repr

/-- `canSetupAutoDeploy(owner)` from `auto-deploy.ts`: the fixed allow-list
`["tini-works"]`, matched case-insensitively. -/
def canSetupAutoDeploy (owner : String) : Bool :=
  ["tini-works"].contains (strToLower owner)

/-- `ensureDeploySecret(owner, repo)`: gated on the allow-list, then the `gh`
secret interaction; every failure path returns `false`. -/
def ensureDeploySecret (owner : String) (gh : GhEnv) : Bool :=
  if ¬ canSetupAutoDeploy owner then false
  else gh.secretOk

/-- `setupAutoDeploy(params)`: gated on the allow-list and the presence of an
application/compose id, then the `gh` workflow interaction; every failure path
returns `false`. -/
def setupAutoDeploy (owner : String) (targetId : Option Nat) (gh : GhEnv) : Bool :=
  if ¬ canSetupAutoDeploy owner then false
  else match targetId with
    | none => false
    | some _ => gh.workflowOk

/-! ## The reconciler (`src/scripts/apply.ts`) -/

/-- `DOMAIN_SUFFIX` from `apply.ts`. -/
def DOMAIN_SUFFIX : String := "apps.quickable.co"

/-- `ProvisionResult` from `apply.ts`. -/
structure ProvisionResult where
  success : Bool
  appName : String
  subdomain : String
  applicationId : Option Nat := none
  composeId : Option Nat := none
  projectId : Option Nat := none
  domain : Option String := none
  error : Option String := none
  autoDeployConfigured : Option Bool := none
deriving DecidableEq, Repr

/-- The `catch` branch of `provisionApplication` / `provisionCompose`:
`{ success: false, appName, subdomain, error: message }`. -/
def failResult (appName subdomain msg : String) : ProvisionResult :=
  { success := false, appName := appName, subdomain := subdomain, error := some msg }

/-- The environment-variable assembly of `provisionApplication` (lines
163-183): static entries other than `secretRefs`, then one entry per
secret ref resolved from `SECRET_{ref.secret}`; a missing secret yields a
warning line and no entry.  Returns `(envVars, warnings)`. -/
def buildEnvVars (env : EnvSpec) (secrets : String → Option String) :
    List String × List String :=
  let statics := env.statics.map fun kv => kv.1 ++ "=" ++ kv.2
  let resolved := env.secretRefs.foldl
    (fun (acc : List String × List String) ref =>
      match secrets ("SECRET_" ++ ref.secret) with
      | some v => (acc.1 ++ [ref.name ++ "=" ++ v], acc.2)
      | none => (acc.1, acc.2 ++ ["Secret " ++ ref.secret ++ " not found in environment"]))
    ([], [])
  (statics ++ resolved.1, resolved.2)

/-- `envVars.join("\n")`. -/
def joinNl (l : List String) : String := String.intercalate "\n" l

/-- The `port` for `domain.create`:
`appSpec.ports?.[0]?.containerPort || 3000` (JavaScript `||`, so an explicit
port `0` also falls back to 3000). -/
def domainPort (ports : List PortSpec) : Nat :=
  match ports.head? with
  | some p => if p.containerPort = 0 then 3000 else p.containerPort
  | none => 3000

/-- `provisionApplication(client, config, subdomain)` from `apply.ts`
(lines 53-252), with the external inputs made explicit:

* `orgs`      — the `github-orgs.yaml` registry;
* `prebuilt`  — the `PREBUILT_IMAGES` map (keyed by subdomain);
* `secrets`   — the process environment (`Bun.env`) as a lookup;
* `gh`        — the `gh` CLI outcomes for the auto-deploy phase.

The call sequence, branch structure and result construction mirror the
source; any failed remote call flows to the `catch` branch, which returns
`{success := false, error}` with the partial remote state kept. -/
def provisionApplication (orgs : List (String × OrgConfig))
    (prebuilt : List (String × String)) (secrets : String → Option String)
    (gh : GhEnv) (s : Rem) (meta : Metadata) (spec : AppSpec)
    (subdomain : String) : ProvisionResult × Rem :=
  let appName := meta.name
  let fullDomain := subdomain ++ "." ++ DOMAIN_SUFFIX
  let prebuiltImage := prebuilt.lookup subdomain
  -- 1. Create project for isolation
  match createProject s ("provisioner-" ++ subdomain)
      (meta.description.getD ("Provisioned app: " ++ appName)) with
  | (.error msg, s1) => (failResult appName subdomain msg, s1)
  | (.ok (project, environment), s1) =>
  -- 3. Create application
  match createApplication s1 appName environment.environmentId with
  | (.error msg, s2) => (failResult appName subdomain msg, s2)
  | (.ok app, s2) =>
  -- 4. Configure source (prebuilt image wins, else github, else docker)
  let sourceStep : Except String Unit × Rem :=
    match prebuiltImage with
    | some _ => voidCall s2          -- application.saveDockerProvider
    | none =>
        match spec.source with
        | .github _ =>
            -- application.update sourceType=git, then saveGitProvider
            (match voidCall s2 with
             | (.error msg, s') => (.error msg, s')
             | (.ok _, s') => voidCall s')
        | .docker _ => voidCall s2   -- application.saveDockerProvider
  match sourceStep with
  | (.error msg, s3) => (failResult appName subdomain msg, s3)
  | (.ok _, s3) =>
  -- 5. Configure build type (skipped for prebuilt images)
  let buildStep : Except String Unit × Rem :=
    match spec.build, prebuiltImage with
    | some _, none => voidCall s3    -- application.saveBuildType
    | _, _ => (.ok (), s3)
  match buildStep with
  | (.error msg, s4) => (failResult appName subdomain msg, s4)
  | (.ok _, s4) =>
  -- 6. Set resource limits
  match setResourceLimitsCall s4 app.applicationId spec.resources with
  | (.error msg, s5) => (failResult appName subdomain msg, s5)
  | (.ok _, s5) =>
  -- 7. Configure environment variables
  let envStep : Except String Unit × Rem :=
    match spec.env with
    | none => (.ok (), s5)
    | some env =>
        let envVars := (buildEnvVars env secrets).1
        if envVars.length > 0 then
          configureEnvironmentCall s5 app.applicationId (joinNl envVars)
        else (.ok (), s5)
  match envStep with
  | (.error msg, s6) => (failResult appName subdomain msg, s6)
  | (.ok _, s6) =>
  -- 8. Create domain
  match createDomain s6 app.applicationId fullDomain (domainPort spec.ports) with
  | (.error msg, s7) => (failResult appName subdomain msg, s7)
  | (.ok _, s7) =>
  -- 9. Trigger initial deployment
  match voidCall s7 with               -- application.deploy
  | (.error msg, s8) => (failResult appName subdomain msg, s8)
  | (.ok _, s8) =>
  -- 10. Setup auto-deploy for allow-listed source owners
  let autoDeployConfigured : Bool :=
    match spec.source with
    | .github g =>
        if ensureDeploySecret g.owner gh then
          setupAutoDeploy g.owner (some app.applicationId) gh
        else false
    | .docker _ => false
  ({ success := true, appName := appName, subdomain := subdomain,
     applicationId := some app.applicationId,
     projectId := some project.projectId,
     autoDeployConfigured := some autoDeployConfigured,
     domain := some ("https://" ++ fullDomain) }, s8)

/-- `provisionCompose(client, config, subdomain)` from `apply.ts`
(lines 257-403), with the same external inputs. -/
def provisionCompose (orgs : List (String × OrgConfig))
    (secrets : String → Option String) (gh : GhEnv) (s : Rem)
    (meta : Metadata) (spec : ComposeSpec) (subdomain : String) :
    ProvisionResult × Rem :=
  let appName := meta.name
  let fullDomain := subdomain ++ "." ++ DOMAIN_SUFFIX
  -- 1. Create project
  match createProject s ("provisioner-" ++ subdomain)
      (meta.description.getD ("Provisioned compose: " ++ appName)) with
  | (.error msg, s1) => (failResult appName subdomain msg, s1)
  | (.ok (project, environment), s1) =>
  -- 3. Create compose stack
  match createCompose s1 appName environment.environmentId with
  | (.error msg, s2) => (failResult appName subdomain msg, s2)
  | (.ok compose, s2) =>
  -- 4. Configure source (github only; other sources configure nothing)
  let sourceStep : Except String Unit × Rem :=
    match spec.source with
    | .github _ => voidCall s2   -- compose.saveGitProvider / saveGithubProvider
    | .docker _ => (.ok (), s2)
  match sourceStep with
  | (.error msg, s3) => (failResult appName subdomain msg, s3)
  | (.ok _, s3) =>
  -- 5. Configure environment variables (no warning line in this copy)
  let envStep : Except String Unit × Rem :=
    match spec.env with
    | none => (.ok (), s3)
    | some env =>
        let envVars := (buildEnvVars env secrets).1
        if envVars.length > 0 then
          configureComposeEnvironmentCall s3 compose.composeId (joinNl envVars)
        else (.ok (), s3)
  match envStep with
  | (.error msg, s4) => (failResult appName subdomain msg, s4)
  | (.ok _, s4) =>
  -- 6. Create domain for the ingress service
  match createDomain s4 compose.composeId fullDomain spec.ingress.port with
  | (.error msg, s5) => (failResult appName subdomain msg, s5)
  | (.ok _, s5) =>
  -- 7. Trigger deployment
  match voidCall s5 with               -- compose.deploy
  | (.error msg, s6) => (failResult appName subdomain msg, s6)
  | (.ok _, s6) =>
  -- 8. Setup auto-deploy
  let autoDeployConfigured : Bool :=
    match spec.source with
    | .github g =>
        if ensureDeploySecret g.owner gh then
          setupAutoDeploy g.owner (some compose.composeId) gh
        else false
    | .docker _ => false
  ({ success := true, appName := appName, subdomain := subdomain,
     composeId := some compose.composeId,
     projectId := some project.projectId,
     domain := some ("https://" ++ fullDomain),
     autoDeployConfigured := some autoDeployConfigured }, s6)

/-! ## Batch driver (`main` in `src/scripts/apply.ts`, lines 492-561) -/

/-- One command-line argument of `apply.ts`: the file path, whether
`existsSync` holds, and the outcome of `parseYaml(readFileSync(...))`
(`Except.error` models a thrown parse exception). -/
structure FileEntry where
  path : String
  present : Bool
  parse : Except String ProvisionConfig
deriving Repr

/-- The failure result `main` records for a missing file. -/
def notFoundResult (path : String) : ProvisionResult :=
  { success := false, appName := "unknown",
    subdomain := getSubdomainFromPath path, error := some "File not found" }

/-- The failure result `applyFile` returns for an unrecognized `kind`. -/
def unknownKindResult (name subdomain k : String) : ProvisionResult :=
  { success := false, appName := name, subdomain := subdomain,
    error := some ("Unknown kind: " ++ k) }

/-- `applyFile` after a successful parse: dispatch on `config.kind`. -/
def applyParsedConfig (orgs : List (String × OrgConfig))
    (prebuilt : List (String × String)) (secrets : String → Option String)
    (gh : GhEnv) (s : Rem) (config : ProvisionConfig) (filePath : String) :
    ProvisionResult × Rem :=
  let subdomain := getSubdomainFromPath filePath
  match config.spec with
  | .app sp => provisionApplication orgs prebuilt secrets gh s config.metadata sp subdomain
  | .composeStack sp => provisionCompose orgs secrets gh s config.metadata sp subdomain
  | .unknownKind k => (unknownKindResult config.metadata.name subdomain k, s)

/-- The outcome of one `main` run: the per-manifest results that were
completed, the fatal parse exception (if one aborted the batch), whether the
initial connectivity check passed, and the process exit code. -/
structure MainOutcome where
  results : List ProvisionResult
  fatal : Option String
  connected : Bool
  exitCode : Nat
deriving Repr

/-- The `for (const filePath of args)` loop of `main`: strictly sequential,
threading the remote state.  A missing file records a failure result and
continues; a parse exception escapes `applyFile` and aborts the whole batch
(`main().catch` → `process.exit(1)`). -/
def processFiles (orgs : List (String × OrgConfig))
    (prebuilt : List (String × String)) (secrets : String → Option String)
    (gh : GhEnv) : Rem → List ProvisionResult → List FileEntry →
    (List ProvisionResult × Option String × Rem)
  | s, acc, [] => (acc, none, s)
  | s, acc, f :: rest =>
      if ¬ f.present then
        processFiles orgs prebuilt secrets gh s (acc ++ [notFoundResult f.path]) rest
      else
        match f.parse with
        | .error msg => (acc, some msg, s)
        | .ok config =>
            let (r, s') := applyParsedConfig orgs prebuilt secrets gh s config f.path
            processFiles orgs prebuilt secrets gh s' (acc ++ [r]) rest

/-- `main` from `apply.ts`: connectivity check, the sequential loop, then
exit status 1 exactly when a result failed (or the batch aborted). -/
def runMain (orgs : List (String × OrgConfig))
    (prebuilt : List (String × String)) (secrets : String → Option String)
    (gh : GhEnv) (s : Rem) (files : List FileEntry) : MainOutcome × Rem :=
  match takeCall s with   -- healthCheck: project.all
  | (false, s0) =>
      ({ results := [], fatal := none, connected := false, exitCode := 1 }, s0)
  | (true, s0) =>
      let (results, fatal, s1) := processFiles orgs prebuilt secrets gh s0 [] files
      let exitCode : Nat :=
        match fatal with
        | some _ => 1
        | none => if results.any (fun r => !r.success) then 1 else 0
      ({ results := results, fatal := fatal, connected := true, exitCode := exitCode }, s1)

/-! ## Lexicographic string comparison

`localeCompare` / default `Array.sort` string comparison, modelled as a
total, transitive, antisymmetric lexicographic order on the character
lists. -/

/-- Lexicographic order on character lists. -/
def charListLe : List Char → List Char → Bool
  | [], _ => true
  | _ :: _, [] => false
  | a :: as, b :: bs => if a < b then true else if b < a then false else charListLe as bs

/-- String comparison used by every generator sort. -/
def strLeB (a b : String) : Bool := charListLe a.data b.data

theorem charListLe_total : ∀ a b, charListLe a b = true ∨ charListLe b a = true := by
  intro a
  induction a with
  | nil => intro b; left; rfl
  | cons x xs ih =>
      intro b
      cases b with
      | nil => right; rfl
      | cons y ys =>
          rcases lt_trichotomy x y with h | h | h
          · left; simp [charListLe, h]
          · subst h
            simp only [charListLe, lt_irrefl, if_false]
            exact ih ys
          · right; simp [charListLe, h]

theorem charListLe_antisymm : ∀ a b, charListLe a b = true → charListLe b a = true → a = b := by
  intro a
  induction a with
  | nil =>
      intro b _ hba
      cases b with
      | nil => rfl
      | cons y ys => exact absurd hba (by simp [charListLe])
  | cons x xs ih =>
      intro b hab hba
      cases b with
      | nil => exact absurd hab (by simp [charListLe])
      | cons y ys =>
          rcases lt_trichotomy x y with h | h | h
          · rw [charListLe, if_neg (asymm h), if_pos h] at hba
            cases hba
          · subst h
            rw [charListLe, if_neg (lt_irrefl x), if_neg (lt_irrefl x)] at hab hba
            rw [ih ys hab hba]
          · rw [charListLe, if_neg (asymm h), if_pos h] at hab
            cases hab

theorem charListLe_trans : ∀ a b c, charListLe a b = true → charListLe b c = true →
    charListLe a c = true := by
  intro a
  induction a with
  | nil => intro b c _ _; rfl
  | cons x xs ih =>
      intro b c hab hbc
      cases b with
      | nil => exact absurd hab (by simp [charListLe])
      | cons y ys =>
          cases c with
          | nil => exact absurd hbc (by simp [charListLe])
          | cons z zs =>
              rcases lt_trichotomy x y with hxy | hxy | hxy
              · rcases lt_trichotomy y z with hyz | hyz | hyz
                · rw [charListLe, if_pos (lt_trans hxy hyz)]
                · subst hyz; rw [charListLe, if_pos hxy]
                · rw [charListLe, if_neg (asymm hyz), if_pos hyz] at hbc; cases hbc
              · subst hxy
                rcases lt_trichotomy x z with hyz | hyz | hyz
                · rw [charListLe, if_pos hyz]
                · subst hyz
                  rw [charListLe, if_neg (lt_irrefl x), if_neg (lt_irrefl x)] at hab hbc ⊢
                  exact ih ys zs hab hbc
                · rw [charListLe, if_neg (asymm hyz), if_pos hyz] at hbc; cases hbc
              · rw [charListLe, if_neg (asymm hxy), if_pos hxy] at hab; cases hab

/-! ## Compose generator (`src/scripts/lib/compose/generator.ts`)

The generator reads the `apps/` directory; the directory enumeration is
modelled as a list of entries in readdir order, everything after it is pure.
JavaScript `Array.prototype.sort` is stable, as is `List.insertionSort`, so
every `.sort(...)` is modelled by `insertionSort` on the same key. -/

/-- `GeneratorOptions` (minus `appsRoot`, which is replaced by the explicit
entry list). -/
structure GeneratorOptions where
  domainSuffix : String
  uiHost : String
  traefikImage : String := "traefik:v2.11"
deriving DecidableEq, Repr

/-- `SecretBinding` from the generator. -/
structure SecretBinding where
  envKey : String
  secretName : String
deriving DecidableEq, Repr

/-- An `Application` manifest as consumed by the generator. -/
structure AppConfig where
  metadata : Metadata
  spec : AppSpec
deriving DecidableEq, Repr

/-- One `readdirSync` entry of the apps directory: whether it is a directory,
and the parsed `provision.yaml` inside it (`none` when the file is absent). -/
structure DirEntry where
  isDir : Bool
  provision : Option ProvisionConfig
deriving DecidableEq, Repr

/-- Stable sort of strings, modelling JavaScript `Array.sort()` (and
`localeCompare`) on the string lists the generator sorts. -/
def sortStrings (l : List String) : List String :=
  l.insertionSort (fun a b => strLeB a b = true)

/-- Stable sort of string-keyed pairs by key (`Object.entries(...).sort`). -/
def sortPairs {α : Type} (l : List (String × α)) : List (String × α) :=
  l.insertionSort (fun a b => strLeB a.1 b.1 = true)

/-- The per-entry filter of `loadApps`: directories holding a
`provision.yaml` of kind `Application`. -/
def entryToApp (e : DirEntry) : Option AppConfig :=
  if e.isDir then
    match e.provision with
    | some c =>
        match c.spec with
        | .app sp => some { metadata := c.metadata, spec := sp }
        | _ => none
    | none => none
  else none

/-- `loadApps`: the kept entries sorted by `metadata.name` for deterministic
output. -/
def loadApps (entries : List DirEntry) : List AppConfig :=
  (entries.filterMap entryToApp).insertionSort
    (fun a b => strLeB a.metadata.name b.metadata.name = true)

/-- The hostname list of `buildAppService` (generator line 76):
`spec.routing?.hostnames ?? [`{name}-p.{domainSuffix}`]`. -/
def appHostnames (app : AppConfig) (domainSuffix : String) : List String :=
  match app.spec.routingHostnames with
  | some hs => hs
  | none => [app.metadata.name ++ "-p." ++ domainSuffix]

/-- `RESOURCE_LIMITS` from the generator (the source also applies an
`?? RESOURCE_LIMITS.S` fallback, which is unreachable for the closed size
enum). -/
structure DeployLimits where
  cpus : String
  memory : String
deriving DecidableEq, Repr

/-- The generator quota table: S, M, L. -/
def RESOURCE_LIMITS : ResourceSize → DeployLimits
  | .S => { cpus := "0.5", memory := "512M" }
  | .M => { cpus := "1", memory := "1G" }
  | .L => { cpus := "2", memory := "2G" }

/-- The `build` block emitted for github sources. -/
structure BuildCfgG where
  context : String
  dockerfile : String
  args : Option (List (String × String)) := none
  ssh : Bool := false
deriving DecidableEq, Repr

/-- A generated compose service. -/
structure ComposeServiceG where
  image : Option String := none
  build : Option BuildCfgG := none
  environment : Option (List (String × String)) := none
  labels : List String := []
  networks : List String := []
  ports : List String := []
  volumes : List String := []
  restart : Option String := none
  deployLimits : Option DeployLimits := none
deriving DecidableEq, Repr

/-- `buildAppService(app, domainSuffix, uiHost)` from the generator
(lines 66-158); `uiHost` is unused in the source (`_uiHost`). -/
def buildAppService (orgs : List (String × OrgConfig)) (app : AppConfig)
    (domainSuffix : String) : ComposeServiceG :=
  let name := app.metadata.name
  let networkName := "app-" ++ name
  let hostnames := appHostnames app domainSuffix
  let rule := "traefik.http.routers." ++ name ++ ".rule=" ++
    String.intercalate " || " (hostnames.map fun h => "Host(`" ++ h ++ "`)")
  let serverPort : Nat :=
    match app.spec.ports.head? with
    | some p => p.containerPort        -- `?? 8080` applies only when absent
    | none => 8080
  let baseLabels : List String :=
    ["traefik.enable=true",
     rule,
     "traefik.http.routers." ++ name ++ ".entrypoints=websecure",
     "traefik.http.routers." ++ name ++ ".tls.certresolver=letsencrypt",
     "traefik.http.services." ++ name ++ ".loadbalancer.server.port=" ++ toString serverPort]
  let healthLabels : List String :=
    match app.spec.healthCheck with
    | some hc =>
        ["traefik.http.services." ++ name ++ ".loadbalancer.healthcheck.path=" ++ hc.path,
         "traefik.http.services." ++ name ++ ".loadbalancer.healthcheck.port=" ++ toString hc.port,
         "traefik.http.services." ++ name ++ ".loadbalancer.healthcheck.interval=" ++
           toString (hc.intervalSeconds.getD 10) ++ "s"]
    | none => []
  let labels := sortStrings (baseLabels ++ healthLabels)
  let (image, build) : Option String × Option BuildCfgG :=
    match app.spec.source with
    | .github g =>
        let repoUrl := "https://github.com/" ++ g.owner ++ "/" ++ g.repo ++ ".git#" ++ g.branch
        let context :=
          match g.path with
          | some p => if p = "" then repoUrl else repoUrl ++ ":" ++ p
          | none => repoUrl
        let dockerfile := ((app.spec.build.bind fun b => b.dockerfile).getD "Dockerfile")
        let args :=
          match app.spec.build.bind fun b => b.args with
          | some as => some (sortPairs as)
          | none => none
        let ssh :=
          match getOrgConfig orgs g.owner with
          | some oc => oc.sshKeyId ≠ ""
          | none => false
        (none, some { context := context, dockerfile := dockerfile, args := args, ssh := ssh })
    | .docker d => (some (d.image ++ ":" ++ d.tag), none)
  let environment : Option (List (String × String)) :=
    match app.spec.env with
    | some env => if env.statics.length > 0 then some (sortPairs env.statics) else none
    | none => none
  { image := image, build := build, environment := environment,
    labels := labels, networks := [networkName],
    restart := some "unless-stopped",
    deployLimits := some (RESOURCE_LIMITS app.spec.resources) }

/-- `buildTraefikService(appNetworks, traefikImage)` (lines 163-184). -/
def buildTraefikService (appNetworks : List String) (traefikImage : String) :
    ComposeServiceG :=
  { image := some traefikImage,
    networks := sortStrings (appNetworks ++ ["public"]),
    ports := ["80:80", "443:443"],
    volumes := ["/var/run/docker.sock:/var/run/docker.sock:ro",
                "./traefik:/etc/traefik:ro",
                "letsencrypt:/letsencrypt"],
    labels := ["traefik.enable=false"],
    restart := some "unless-stopped" }

/-- A generated network entry. -/
structure NetworkCfg where
  internal : Bool := false
deriving DecidableEq, Repr

/-- The generated compose file. -/
structure ComposeFileG where
  services : List (String × ComposeServiceG)
  networks : List (String × NetworkCfg)
  volumes : List String
deriving DecidableEq, Repr

/-- JavaScript `obj[key] = v`: replace the value of an existing key, else
append the pair. -/
def upsert {α : Type} (m : List (String × α)) (k : String) (v : α) :
    List (String × α) :=
  if m.any (fun p => p.1 = k) then
    m.map fun p => if p.1 = k then (k, v) else p
  else m ++ [(k, v)]

/-- `buildCompose(apps, options)` (lines 189-230): one service and one
internal network per app (later duplicates overwrite earlier ones, as with a
JavaScript object), the traefik service, the public network, and sorted
services/networks for determinism. -/
def buildCompose (orgs : List (String × OrgConfig)) (apps : List AppConfig)
    (options : GeneratorOptions) : ComposeFileG :=
  let step := fun (acc : List (String × ComposeServiceG) × List (String × NetworkCfg) × List String)
      (app : AppConfig) =>
    let name := app.metadata.name
    let networkName := "app-" ++ name
    (upsert acc.1 name (buildAppService orgs app options.domainSuffix),
     upsert acc.2.1 networkName { internal := true },
     acc.2.2 ++ [networkName])
  let built := apps.foldl step ([], [], [])
  let services := upsert built.1 "traefik" (buildTraefikService built.2.2 options.traefikImage)
  let networks := upsert built.2.1 "public" { internal := false }
  { services := sortPairs services,
    networks := sortPairs networks,
    volumes := ["letsencrypt"] }

/-- A deterministic rendering of one generated service, standing for its
fragment of the YAML output. -/
def printService (p : String × ComposeServiceG) : String :=
  let s := p.2
  p.1 ++ ":\n" ++
  (match s.image with | some i => "  image: " ++ i ++ "\n" | none => "") ++
  (match s.build with
   | some b =>
       "  build: context=" ++ b.context ++ " dockerfile=" ++ b.dockerfile ++
       (match b.args with
        | some as => as.foldl (fun acc kv => acc ++ " arg:" ++ kv.1 ++ "=" ++ kv.2) ""
        | none => "") ++
       (if b.ssh then " ssh=default" else "") ++ "\n"
   | none => "") ++
  (match s.environment with
   | some es => es.foldl (fun acc kv => acc ++ "  env: " ++ kv.1 ++ "=" ++ kv.2 ++ "\n") ""
   | none => "") ++
  (s.labels.foldl (fun acc l => acc ++ "  label: " ++ l ++ "\n") "") ++
  (s.networks.foldl (fun acc n => acc ++ "  network: " ++ n ++ "\n") "") ++
  (s.ports.foldl (fun acc q => acc ++ "  port: " ++ q ++ "\n") "") ++
  (s.volumes.foldl (fun acc v => acc ++ "  volume: " ++ v ++ "\n") "") ++
  (match s.restart with | some r => "  restart: " ++ r ++ "\n" | none => "") ++
  (match s.deployLimits with
   | some d => "  limits: cpus=" ++ d.cpus ++ " memory=" ++ d.memory ++ "\n"
   | none => "")

/-- `stringifyCompose(compose)` (lines 235-240): the YAML emitter with
`sortMapEntries: true`, modelled as a deterministic rendering that sorts map
entries by key before printing. -/
def stringifyCompose (c : ComposeFileG) : String :=
  "services:\n" ++
  ((sortPairs c.services).foldl (fun acc p => acc ++ printService p) "") ++
  "networks:\n" ++
  ((sortPairs c.networks).foldl
    (fun acc p => acc ++ "  " ++ p.1 ++ (if p.2.internal then ": internal" else ":") ++ "\n") "") ++
  "volumes:\n" ++
  (c.volumes.foldl (fun acc v => acc ++ "  " ++ v ++ ":\n") "")

/-- The secret refs one app contributes. -/
def appBindings (a : AppConfig) : List SecretBinding :=
  match a.spec.env with
  | some env => env.secretRefs.map fun r => { envKey := r.name, secretName := r.secret }
  | none => []

/-- One step of the dedup fold of `collectSecretBindings` (the `seen` set is
the second component). -/
def dedupStep (acc : List SecretBinding × List (String × String))
    (b : SecretBinding) : List SecretBinding × List (String × String) :=
  if acc.2.contains (b.envKey, b.secretName) then acc
  else (acc.1 ++ [b], acc.2 ++ [(b.envKey, b.secretName)])

/-- `collectSecretBindings(apps)` (lines 245-270): all secret refs in app
order, sorted by `envKey` (stable), deduplicated on `envKey:secretName`
keeping the first occurrence. -/
def collectSecretBindings (apps : List AppConfig) : List SecretBinding :=
  let bindings := apps.flatMap appBindings
  let sorted := bindings.insertionSort (fun a b => strLeB a.envKey b.envKey = true)
  (sorted.foldl dedupStep ([], [])).1

/-- `GeneratorResult`. -/
structure GeneratorResult where
  compose : ComposeFileG
  yaml : String
  appNames : List String
  secretBindings : List SecretBinding
deriving DecidableEq, Repr

/-- `generateComposeBundle(options)` (lines 275-283), over an explicit
directory enumeration. -/
def generateComposeBundle (orgs : List (String × OrgConfig))
    (options : GeneratorOptions) (entries : List DirEntry) : GeneratorResult :=
  let apps := loadApps entries
  let compose := buildCompose orgs apps options
  { compose := compose,
    yaml := stringifyCompose compose,
    appNames := sortStrings (apps.map fun a => a.metadata.name),
    secretBindings := collectSecretBindings apps }

/-! ## Characterization of a successful reconciliation run -/

/-- The auto-deploy outcome `provisionApplication` computes in step 10. -/
def adcOf (spec : AppSpec) (gh : GhEnv) : Bool :=
  match spec.source with
  | .github g =>
      if ensureDeploySecret g.owner gh then setupAutoDeploy g.owner (some 0) gh
      else false
  | .docker _ => false

/-- The environment blob stored for the application (step 7):
`none` when `spec.env` is absent or assembles to an empty variable list. -/
def envBlobOf (spec : AppSpec) (secrets : String → Option String) : Option String :=
  match spec.env with
  | none => none
  | some env =>
      let envVars := (buildEnvVars env secrets).1
      if envVars.length > 0 then some (joinNl envVars) else none

/-- The result returned by a fully successful `provisionApplication` run. -/
def provOkResult (gh : GhEnv) (s : Rem) (meta : Metadata) (spec : AppSpec)
    (subdomain : String) : ProvisionResult :=
  { success := true, appName := meta.name, subdomain := subdomain,
    applicationId := some (s.nextId + 2),
    projectId := some s.nextId,
    domain := some ("https://" ++ (subdomain ++ "." ++ DOMAIN_SUFFIX)),
    autoDeployConfigured := some (adcOf spec gh) }

/-- The application row created by a fully successful run. -/
def provOkApp (secrets : String → Option String) (s : Rem) (meta : Metadata)
    (spec : AppSpec) : RApp :=
  { applicationId := s.nextId + 2, name := meta.name, environmentId := s.nextId + 1,
    cpuLimit := some (QUOTAS spec.resources).cpuLimit,
    memoryLimit := some (QUOTAS spec.resources).memoryLimit,
    env := envBlobOf spec secrets }

/-- The remote state left by a fully successful run: one new project,
environment, application and domain row, ids drawn from the counter. -/
def provOkState (secrets : String → Option String) (s : Rem) (meta : Metadata)
    (spec : AppSpec) (subdomain : String) : Rem :=
  { s with
    nextId := s.nextId + 4,
    projects := s.projects ++
      [{ projectId := s.nextId, name := "provisioner-" ++ subdomain,
         description := meta.description.getD ("Provisioned app: " ++ meta.name) }],
    envs := s.envs ++ [{ environmentId := s.nextId + 1, projectId := s.nextId }],
    apps := s.apps ++ [provOkApp secrets s meta spec],
    domains := s.domains ++
      [{ domainId := s.nextId + 3, host := subdomain ++ "." ++ DOMAIN_SUFFIX,
         port := domainPort spec.ports, ownerId := s.nextId + 2 }] }

/-- Id-freshness invariant: every application row id is below the counter.
All client operations preserve it. -/
def Rem.wf (s : Rem) : Prop :=
  ∀ a ∈ s.apps, a.applicationId < s.nextId

/-- Mapping a keyed conditional update over rows none of which carry the key
leaves the rows unchanged. -/
theorem map_if_id (l : List RApp) (k : Nat) (f : RApp → RApp)
    (h : ∀ a ∈ l, a.applicationId ≠ k) :
    l.map (fun a => if a.applicationId = k then f a else a) = l := by
  induction l with
  | nil => rfl
  | cons x xs ih =>
      simp only [List.map_cons, List.cons.injEq]
      exact ⟨by simp [h x (List.mem_cons_self x xs)],
             ih fun a ha => h a (List.mem_cons_of_mem _ ha)⟩

/-- Characterization of `provisionApplication` when the remote accepts every
call (empty schedule) on a well-formed state: the run succeeds and performs
exactly the CREATE-mode mutations, independent of the existing rows. -/
theorem provisionApplication_ok (orgs : List (String × OrgConfig))
    (prebuilt : List (String × String)) (secrets : String → Option String)
    (gh : GhEnv) (s : Rem) (meta : Metadata) (spec : AppSpec)
    (subdomain : String) (hsch : s.schedule = []) (hwf : s.wf) :
    provisionApplication orgs prebuilt secrets gh s meta spec subdomain =
      (provOkResult gh s meta spec subdomain,
       provOkState secrets s meta spec subdomain) := by
  obtain ⟨n, projects, envs, apps, composes, domains, sched⟩ := s
  simp only [Rem.wf] at hwf
  simp only at hsch
  subst hsch
  have hne2 : ∀ a ∈ apps, a.applicationId ≠ n + 2 := fun a ha => by
    have := hwf a ha; omega
  rcases hpre : List.lookup subdomain prebuilt with _ | img <;>
  rcases hsrc : spec.source with g | d <;>
  rcases hbuild : spec.build with _ | b <;>
  rcases henv : spec.env with _ | env <;>
  simp only [provisionApplication, createProject, createApplication, voidCall,
    setResourceLimitsCall, configureEnvironmentCall, createDomain, takeCall,
    provOkResult, provOkState, provOkApp, adcOf, envBlobOf, hpre, hsrc, hbuild, henv,
    List.map_append, List.map_cons, List.map_nil, map_if_id _ _ _ hne2,
    eq_self_iff_true, if_true] <;>
  (try split_ifs) <;>
  (try simp only [takeCall, List.map_append, List.map_cons, List.map_nil,
    map_if_id _ _ _ hne2, eq_self_iff_true, if_true]) <;>
  (try simp [map_if_id _ _ _ hne2, setupAutoDeploy])

/-- A successful run preserves the id-freshness invariant. -/
theorem provOkState_wf (secrets : String → Option String) (s : Rem)
    (meta : Metadata) (spec : AppSpec) (subdomain : String) (hwf : s.wf) :
    (provOkState secrets s meta spec subdomain).wf := by
  intro a ha
  simp only [provOkState, provOkApp, List.mem_append, List.mem_singleton] at ha
  rcases ha with ha | rfl
  · have := hwf a ha; simp only [provOkState]; omega
  · simp only [provOkState]; omega

/-- A successful run leaves the call schedule untouched. -/
theorem provOkState_schedule (secrets : String → Option String) (s : Rem)
    (meta : Metadata) (spec : AppSpec) (subdomain : String) :
    (provOkState secrets s meta spec subdomain).schedule = s.schedule := rfl

/-! ## Concrete fixtures used by counterexamples and witnesses -/

/-- A benign application spec (docker source, size S, port 80). -/
def specDemo : AppSpec :=
  { source := .docker { image := "nginx", tag := "1.25" },
    resources := .S, ports := [{ containerPort := 80 }],
    healthCheck := some { path := "/", port := 80 } }

/-- Metadata for the fixture manifest. -/
def metaDemo : Metadata := { name := "demo", maintainer := "@someone" }

/-- A remote state already holding two applications that share the name
`web` — the ambiguity situation of invariant I1. -/
def dupState : Rem :=
  { nextId := 10,
    apps := [{ applicationId := 3, name := "web", environmentId := 1 },
             { applicationId := 4, name := "web", environmentId := 1 }] }

/-- Metadata whose name collides with the two existing `web` rows. -/
def metaWeb : Metadata := { name := "web", maintainer := "@someone" }

/-! ## Claim theorems -/

/-- C1 (counterexample): reconciling the name `web` against a remote state
that already holds two applications named `web` does not abort with an
AmbiguityError: the run reports success, no error, and afterwards three
applications named `web` exist. -/
theorem reconcile_ignores_duplicates_cex :
    (provisionApplication [] [] (fun _ => none) ⟨false, false⟩ dupState
        metaWeb specDemo "web").1.success = true ∧
    (provisionApplication [] [] (fun _ => none) ⟨false, false⟩ dupState
        metaWeb specDemo "web").1.error = none ∧
    ((provisionApplication [] [] (fun _ => none) ⟨false, false⟩ dupState
        metaWeb specDemo "web").2.apps.filter fun a => a.name == "web").length = 3 := by
  decide

/-- C1 (amended): the reconciler never consults the remote application list.
For every remote state that accepts all calls, it unconditionally creates a
new application named `metadata.name` and returns success — zero, one, or
many existing applications with that name are treated identically, and no
AmbiguityError is ever produced. -/
theorem reconcile_always_creates (orgs : List (String × OrgConfig))
    (prebuilt : List (String × String)) (secrets : String → Option String)
    (gh : GhEnv) (s : Rem) (meta : Metadata) (spec : AppSpec) (subdomain : String)
    (hsch : s.schedule = []) (hwf : s.wf) :
    (provisionApplication orgs prebuilt secrets gh s meta spec subdomain).1.success = true ∧
    (provisionApplication orgs prebuilt secrets gh s meta spec subdomain).1.error = none ∧
    (provisionApplication orgs prebuilt secrets gh s meta spec subdomain).2.apps.length
      = s.apps.length + 1 ∧
    ((provisionApplication orgs prebuilt secrets gh s meta spec subdomain).2.apps.filter
        fun a => a.name == meta.name).length
      = (s.apps.filter fun a => a.name == meta.name).length + 1 := by
  rw [provisionApplication_ok orgs prebuilt secrets gh s meta spec subdomain hsch hwf]
  simp [provOkResult, provOkState, provOkApp]

/-- Witness for C1's amended theorem at a concrete state with two duplicate
rows. -/
theorem reconcile_always_creates_witness :
    (provisionApplication [] [] (fun _ => none) ⟨true, true⟩ dupState
        metaWeb specDemo "web").1.success = true ∧
    (provisionApplication [] [] (fun _ => none) ⟨true, true⟩ dupState
        metaWeb specDemo "web").1.error = none ∧
    (provisionApplication [] [] (fun _ => none) ⟨true, true⟩ dupState
        metaWeb specDemo "web").2.apps.length = dupState.apps.length + 1 ∧
    ((provisionApplication [] [] (fun _ => none) ⟨true, true⟩ dupState
        metaWeb specDemo "web").2.apps.filter fun a => a.name == metaWeb.name).length
      = (dupState.apps.filter fun a => a.name == metaWeb.name).length + 1 :=
  reconcile_always_creates [] [] (fun _ => none) ⟨true, true⟩ dupState
    metaWeb specDemo "web" rfl (by unfold Rem.wf; decide)

/-- C2 (counterexample): running the reconciler twice in a row on the same
manifest, with no remote drift in between, returns two different
applicationIds and the second run adds a second project, application and
domain row. -/
theorem reconcile_not_idempotent_cex :
    (provisionApplication [] [] (fun _ => none) ⟨false, false⟩ {} metaDemo
        specDemo "demo").1.applicationId = some 2 ∧
    (provisionApplication [] [] (fun _ => none) ⟨false, false⟩
        (provisionApplication [] [] (fun _ => none) ⟨false, false⟩ {} metaDemo
          specDemo "demo").2 metaDemo specDemo "demo").1.applicationId = some 6 ∧
    (provisionApplication [] [] (fun _ => none) ⟨false, false⟩
        (provisionApplication [] [] (fun _ => none) ⟨false, false⟩ {} metaDemo
          specDemo "demo").2 metaDemo specDemo "demo").2.domains.length = 2 ∧
    (provisionApplication [] [] (fun _ => none) ⟨false, false⟩
        (provisionApplication [] [] (fun _ => none) ⟨false, false⟩ {} metaDemo
          specDemo "demo").2 metaDemo specDemo "demo").2.projects.length = 2 := by
  decide

/-- C2 (amended): reconciliation is not idempotent at the row level.  With no
remote drift between the runs, the second run succeeds but returns a fresh
applicationId different from the first and creates one more project,
application and domain row; only the derived appName, subdomain and domain
string are stable across runs. -/
theorem reconcile_second_run_fresh_rows (orgs : List (String × OrgConfig))
    (prebuilt : List (String × String)) (secrets : String → Option String)
    (gh : GhEnv) (s : Rem) (meta : Metadata) (spec : AppSpec) (subdomain : String)
    (hsch : s.schedule = []) (hwf : s.wf) :
    (provisionApplication orgs prebuilt secrets gh s meta spec subdomain).1.success = true ∧
    (provisionApplication orgs prebuilt secrets gh
        (provisionApplication orgs prebuilt secrets gh s meta spec subdomain).2
        meta spec subdomain).1.success = true ∧
    (provisionApplication orgs prebuilt secrets gh s meta spec subdomain).1.applicationId ≠
      (provisionApplication orgs prebuilt secrets gh
        (provisionApplication orgs prebuilt secrets gh s meta spec subdomain).2
        meta spec subdomain).1.applicationId ∧
    (provisionApplication orgs prebuilt secrets gh
        (provisionApplication orgs prebuilt secrets gh s meta spec subdomain).2
        meta spec subdomain).2.apps.length
      = (provisionApplication orgs prebuilt secrets gh s meta spec subdomain).2.apps.length + 1 ∧
    (provisionApplication orgs prebuilt secrets gh
        (provisionApplication orgs prebuilt secrets gh s meta spec subdomain).2
        meta spec subdomain).2.domains.length
      = (provisionApplication orgs prebuilt secrets gh s meta spec subdomain).2.domains.length + 1 ∧
    (provisionApplication orgs prebuilt secrets gh
        (provisionApplication orgs prebuilt secrets gh s meta spec subdomain).2
        meta spec subdomain).2.projects.length
      = (provisionApplication orgs prebuilt secrets gh s meta spec subdomain).2.projects.length + 1 ∧
    (provisionApplication orgs prebuilt secrets gh
        (provisionApplication orgs prebuilt secrets gh s meta spec subdomain).2
        meta spec subdomain).1.appName
      = (provisionApplication orgs prebuilt secrets gh s meta spec subdomain).1.appName ∧
    (provisionApplication orgs prebuilt secrets gh
        (provisionApplication orgs prebuilt secrets gh s meta spec subdomain).2
        meta spec subdomain).1.domain
      = (provisionApplication orgs prebuilt secrets gh s meta spec subdomain).1.domain := by
  rw [provisionApplication_ok orgs prebuilt secrets gh s meta spec subdomain hsch hwf]
  rw [provisionApplication_ok orgs prebuilt secrets gh
    (provOkState secrets s meta spec subdomain) meta spec subdomain
    (by rw [provOkState_schedule]; exact hsch)
    (provOkState_wf secrets s meta spec subdomain hwf)]
  simp [provOkResult, provOkState, provOkApp]

/-- Witness for C2's amended theorem starting from the empty remote state. -/
theorem reconcile_second_run_fresh_rows_witness :
    (provisionApplication [] [] (fun _ => none) ⟨true, true⟩ {} metaDemo
        specDemo "demo").1.success = true ∧
    (provisionApplication [] [] (fun _ => none) ⟨true, true⟩
        (provisionApplication [] [] (fun _ => none) ⟨true, true⟩ {} metaDemo
          specDemo "demo").2 metaDemo specDemo "demo").1.success = true ∧
    (provisionApplication [] [] (fun _ => none) ⟨true, true⟩ {} metaDemo
        specDemo "demo").1.applicationId ≠
      (provisionApplication [] [] (fun _ => none) ⟨true, true⟩
        (provisionApplication [] [] (fun _ => none) ⟨true, true⟩ {} metaDemo
          specDemo "demo").2 metaDemo specDemo "demo").1.applicationId ∧
    (provisionApplication [] [] (fun _ => none) ⟨true, true⟩
        (provisionApplication [] [] (fun _ => none) ⟨true, true⟩ {} metaDemo
          specDemo "demo").2 metaDemo specDemo "demo").2.apps.length
      = (provisionApplication [] [] (fun _ => none) ⟨true, true⟩ {} metaDemo
          specDemo "demo").2.apps.length + 1 ∧
    (provisionApplication [] [] (fun _ => none) ⟨true, true⟩
        (provisionApplication [] [] (fun _ => none) ⟨true, true⟩ {} metaDemo
          specDemo "demo").2 metaDemo specDemo "demo").2.domains.length
      = (provisionApplication [] [] (fun _ => none) ⟨true, true⟩ {} metaDemo
          specDemo "demo").2.domains.length + 1 ∧
    (provisionApplication [] [] (fun _ => none) ⟨true, true⟩
        (provisionApplication [] [] (fun _ => none) ⟨true, true⟩ {} metaDemo
          specDemo "demo").2 metaDemo specDemo "demo").2.projects.length
      = (provisionApplication [] [] (fun _ => none) ⟨true, true⟩ {} metaDemo
          specDemo "demo").2.projects.length + 1 ∧
    (provisionApplication [] [] (fun _ => none) ⟨true, true⟩
        (provisionApplication [] [] (fun _ => none) ⟨true, true⟩ {} metaDemo
          specDemo "demo").2 metaDemo specDemo "demo").1.appName
      = (provisionApplication [] [] (fun _ => none) ⟨true, true⟩ {} metaDemo
          specDemo "demo").1.appName ∧
    (provisionApplication [] [] (fun _ => none) ⟨true, true⟩
        (provisionApplication [] [] (fun _ => none) ⟨true, true⟩ {} metaDemo
          specDemo "demo").2 metaDemo specDemo "demo").1.domain
      = (provisionApplication [] [] (fun _ => none) ⟨true, true⟩ {} metaDemo
          specDemo "demo").1.domain :=
  reconcile_second_run_fresh_rows [] [] (fun _ => none) ⟨true, true⟩ {} metaDemo
    specDemo "demo" rfl (by unfold Rem.wf; decide)

/-- C3 (counterexample): for the manifest `apps/demo/provision.yaml` with
`metadata.name = "demo"`, the reconciler creates the domain host
`demo.apps.quickable.co` — not `demo-p.apps.quickable.co` as the claimed
formula `{metadata.name}-p.{domainSuffix}` requires. -/
theorem domain_host_formula_cex :
    ((provisionApplication [] [] (fun _ => none) ⟨false, false⟩ {} metaDemo
        specDemo (getSubdomainFromPath "apps/demo/provision.yaml")).2.domains.map
      fun d => d.host) = ["demo.apps.quickable.co"] ∧
    ("demo.apps.quickable.co" : String) ≠
      metaDemo.name ++ "-p." ++ DOMAIN_SUFFIX := by
  decide

/-- C3 (amended): the reconciler derives the domain host as
`{subdomain}.{domainSuffix}` from the manifest's file-path subdomain (no `-p`
token); the `{metadata.name}-p.{domainSuffix}` formula is the compose
generator's default only, and an explicit `spec.routing.hostnames` list
overrides it. -/
theorem domain_host_characterization :
    (∀ (orgs : List (String × OrgConfig)) (prebuilt : List (String × String))
        (secrets : String → Option String) (gh : GhEnv) (s : Rem)
        (meta : Metadata) (spec : AppSpec) (subdomain : String),
      s.schedule = [] → s.wf →
      (provisionApplication orgs prebuilt secrets gh s meta spec subdomain).1.domain
          = some ("https://" ++ (subdomain ++ "." ++ DOMAIN_SUFFIX)) ∧
      ∃ d : RDomain,
        (provisionApplication orgs prebuilt secrets gh s meta spec subdomain).2.domains
            = s.domains ++ [d] ∧
        d.host = subdomain ++ "." ++ DOMAIN_SUFFIX ∧
        d.port = domainPort spec.ports) ∧
    (∀ (app : AppConfig) (sfx : String), app.spec.routingHostnames = none →
        appHostnames app sfx = [app.metadata.name ++ "-p." ++ sfx]) ∧
    (∀ (app : AppConfig) (sfx : String) (hs : List String),
        app.spec.routingHostnames = some hs → appHostnames app sfx = hs) := by
  refine ⟨?_, ?_, ?_⟩
  · intro orgs prebuilt secrets gh s meta spec subdomain hsch hwf
    rw [provisionApplication_ok orgs prebuilt secrets gh s meta spec subdomain hsch hwf]
    exact ⟨rfl, _, rfl, rfl, rfl⟩
  · intro app sfx h
    simp [appHostnames, h]
  · intro app sfx hs h
    simp [appHostnames, h]

/-- Witness for C3's amended theorem: the reconciler part at a concrete run
and the generator default at a concrete app. -/
theorem domain_host_characterization_witness :
    ((provisionApplication [] [] (fun _ => none) ⟨true, true⟩ {} metaDemo
        specDemo "demo").1.domain
        = some ("https://" ++ ("demo" ++ "." ++ DOMAIN_SUFFIX)) ∧
      ∃ d : RDomain,
        (provisionApplication [] [] (fun _ => none) ⟨true, true⟩ {} metaDemo
            specDemo "demo").2.domains = ({} : Rem).domains ++ [d] ∧
        d.host = "demo" ++ "." ++ DOMAIN_SUFFIX ∧
        d.port = domainPort specDemo.ports) ∧
    appHostnames { metadata := metaDemo, spec := specDemo } "apps.quickable.co"
      = [metaDemo.name ++ "-p." ++ "apps.quickable.co"] :=
  ⟨domain_host_characterization.1 [] [] (fun _ => none) ⟨true, true⟩ {} metaDemo
      specDemo "demo" rfl (by unfold Rem.wf; decide),
   domain_host_characterization.2.1 { metadata := metaDemo, spec := specDemo }
      "apps.quickable.co" rfl⟩

/-- Helper: the validator rejects whenever some error was collected. -/
theorem valid_false_of_mem_errors (schemaErrors : List ValidationError)
    (reserved blockedPre : List String) (config : ProvisionConfig)
    (fetched : Option ComposeFileV) (e : ValidationError)
    (he : e ∈ (validateFileCore schemaErrors reserved blockedPre config fetched).errors) :
    (validateFileCore schemaErrors reserved blockedPre config fetched).valid = false := by
  have hne := List.ne_nil_of_mem he
  cases hh : (validateFileCore schemaErrors reserved blockedPre config fetched).errors with
  | nil => exact absurd hh hne
  | cons x xs =>
      have : (validateFileCore schemaErrors reserved blockedPre config fetched).valid
          = (validateFileCore schemaErrors reserved blockedPre config fetched).errors.isEmpty := rfl
      rw [this, hh]
      rfl

/-- C4: if any one nested service of a compose descriptor sets
`privileged: true`, the policy check records an error naming that service and
the validator denies the manifest (`valid = false`), regardless of all other
services. -/
theorem privileged_service_denied
    (services : List (String × ComposeServiceV)) (nm : String) (svc : ComposeServiceV)
    (hmem : (nm, svc) ∈ services) (hpriv : svc.privileged = some true)
    (schemaErrors : List ValidationError) (reserved blockedPre : List String)
    (meta : Metadata) (cs : ComposeSpec) :
    (∃ e ∈ (checkDangerousOptions nm svc).1,
        e.message = "Service \x27" ++ nm ++ "\x27 uses privileged mode - this allows container escape") ∧
    (validateFileCore schemaErrors reserved blockedPre ⟨meta, .composeStack cs⟩
        (some ⟨services⟩)).valid = false := by
  have hmsg : ({ message := "Service \x27" ++ nm ++ "\x27 uses privileged mode - this allows container escape", path := none } : ValidationError)
      ∈ (checkDangerousOptions nm svc).1 := by
    simp [checkDangerousOptions, hpriv]
  refine ⟨⟨_, hmsg, rfl⟩, ?_⟩
  refine valid_false_of_mem_errors _ _ _ _ _
    { message := "Service \x27" ++ nm ++ "\x27 uses privileged mode - this allows container escape", path := none } ?_
  simp only [validateFileCore, List.mem_append, composeServiceErrors, List.mem_flatMap]
  exact Or.inr ⟨(nm, svc), hmem, hmsg⟩

/-- `parseInt` on a raw decimal string (how the control plane reads the
quota strings, per the comment in `dokploy-client.ts`). -/
def parseIntStr (s : String) : Option Nat :=
  if s.data ≠ [] ∧ s.data.all Char.isDigit then
    some (s.data.foldl (fun acc c => acc * 10 + (c.toNat - 48)) 0)
  else none

/-- The error the README validator records for a name ending in `-p`. -/
def suffixPError : ValidationError :=
  { message := "App name must not end with \x27-p\x27 because \x27-p\x27 is appended automatically",
    path := some "/metadata/name" }

/-- C5: a manifest whose (case-folded) `metadata.name` ends with the
platform-appended suffix token `-p` is rejected by validation: the result is
invalid with an error located at `/metadata/name`. -/
theorem suffix_p_name_rejected (schemaErrors : List ValidationError)
    (reserved blockedPre : List String) (config : ProvisionConfig)
    (fetched : Option ComposeFileV)
    (h : strEndsWith (strToLower config.metadata.name) "-p" = true) :
    (validateFileCore schemaErrors reserved blockedPre config fetched).valid = false ∧
    ∃ e ∈ (validateFileCore schemaErrors reserved blockedPre config fetched).errors,
      e.path = some "/metadata/name" ∧
      e.message = "App name must not end with \x27-p\x27 because \x27-p\x27 is appended automatically" := by
  have hne : strToLower config.metadata.name ≠ "" := by
    intro h0
    rw [h0] at h
    exact absurd h (by decide)
  have hpe : suffixPError
      ∈ (validateFileCore schemaErrors reserved blockedPre config fetched).errors := by
    simp only [validateFileCore, List.mem_append]
    refine Or.inl (Or.inl (Or.inr ?_))
    rw [if_pos ⟨hne, h⟩]
    exact List.mem_singleton.mpr rfl
  exact ⟨valid_false_of_mem_errors _ _ _ _ _ _ hpe, ⟨suffixPError, hpe, rfl, rfl⟩⟩

/-- C6: the cpu and memory limits applied to the remote application are
determined solely by `spec.resources.size` through the fixed quota table
S→(0.5 CPU, 512MB), M→(1 CPU, 1GB), L→(2 CPU, 2GB) — in nanocpu/byte strings
`parseInt`-equal to those quantities — and the generator's compose limits
table matches; the manifest contributes nothing but the size. -/
theorem resource_limits_from_size_table :
    (QUOTAS .S = { cpuLimit := "500000000", memoryLimit := "536870912" } ∧
     QUOTAS .M = { cpuLimit := "1000000000", memoryLimit := "1073741824" } ∧
     QUOTAS .L = { cpuLimit := "2000000000", memoryLimit := "2147483648" }) ∧
    (parseIntStr (QUOTAS .S).memoryLimit = some (512 * 1024 * 1024) ∧
     parseIntStr (QUOTAS .M).memoryLimit = some (1024 * 1024 * 1024) ∧
     parseIntStr (QUOTAS .L).memoryLimit = some (2 * 1024 * 1024 * 1024) ∧
     parseIntStr (QUOTAS .S).cpuLimit = some (1000000000 / 2) ∧
     parseIntStr (QUOTAS .M).cpuLimit = some (1 * 1000000000) ∧
     parseIntStr (QUOTAS .L).cpuLimit = some (2 * 1000000000)) ∧
    (∀ (appId : Nat) (size : ResourceSize), setResourceLimitsRequest appId size =
        { applicationId := appId, cpuLimit := (QUOTAS size).cpuLimit,
          memoryLimit := (QUOTAS size).memoryLimit }) ∧
    (∀ (appId : Nat) (s1 s2 : AppSpec), s1.resources = s2.resources →
        setResourceLimitsRequest appId s1.resources = setResourceLimitsRequest appId s2.resources) ∧
    (RESOURCE_LIMITS .S = { cpus := "0.5", memory := "512M" } ∧
     RESOURCE_LIMITS .M = { cpus := "1", memory := "1G" } ∧
     RESOURCE_LIMITS .L = { cpus := "2", memory := "2G" }) ∧
    (∀ (orgs : List (String × OrgConfig)) (prebuilt : List (String × String))
        (secrets : String → Option String) (gh : GhEnv) (s : Rem)
        (meta : Metadata) (spec : AppSpec) (subdomain : String),
      s.schedule = [] → s.wf →
      ∃ a : RApp,
        (provisionApplication orgs prebuilt secrets gh s meta spec subdomain).2.apps
            = s.apps ++ [a] ∧
        a.cpuLimit = some (QUOTAS spec.resources).cpuLimit ∧
        a.memoryLimit = some (QUOTAS spec.resources).memoryLimit ∧
        a.name = meta.name) := by
  refine ⟨⟨rfl, rfl, rfl⟩, by decide, fun appId size => rfl,
    fun appId s1 s2 hres => by rw [hres], ⟨rfl, rfl, rfl⟩, ?_⟩
  intro orgs prebuilt secrets gh s meta spec subdomain hsch hwf
  rw [provisionApplication_ok orgs prebuilt secrets gh s meta spec subdomain hsch hwf]
  exact ⟨provOkApp secrets s meta spec, rfl, rfl, rfl, rfl⟩


/-- A compose-stack spec fixture. -/
def csDemo : ComposeSpec :=
  { source := .github { owner := "acme", repo := "app", branch := "release" },
    ingress := { service := "web", port := 80 } }

/-- Witness for C4 at a concrete two-service compose file with one benign
and one privileged service. -/
theorem privileged_service_denied_witness :
    (∃ e ∈ (checkDangerousOptions "web" { privileged := some true }).1,
        e.message = "Service \x27" ++ "web" ++ "\x27 uses privileged mode - this allows container escape") ∧
    (validateFileCore [] [] [] ⟨{ name := "stack", maintainer := "@m" }, .composeStack csDemo⟩
        (some ⟨[("ok", {}), ("web", { privileged := some true })]⟩)).valid = false :=
  privileged_service_denied [("ok", {}), ("web", { privileged := some true })]
    "web" { privileged := some true } (by decide) rfl [] [] []
    { name := "stack", maintainer := "@m" } csDemo

/-- Witness for C5 at the concrete name `demo-p`. -/
theorem suffix_p_name_rejected_witness :
    (validateFileCore [] [] [] ⟨{ name := "demo-p", maintainer := "@m" }, .app specDemo⟩ none).valid = false ∧
    ∃ e ∈ (validateFileCore [] [] [] ⟨{ name := "demo-p", maintainer := "@m" }, .app specDemo⟩ none).errors,
      e.path = some "/metadata/name" ∧
      e.message = "App name must not end with \x27-p\x27 because \x27-p\x27 is appended automatically" :=
  suffix_p_name_rejected [] [] [] ⟨{ name := "demo-p", maintainer := "@m" }, .app specDemo⟩ none (by decide)

/-- Witness for C6: the row created by a concrete successful run carries the
table limits for size S. -/
theorem resource_limits_from_size_table_witness :
    ∃ a : RApp,
      (provisionApplication [] [] (fun _ => none) ⟨true, true⟩ {} metaDemo
          specDemo "demo").2.apps = ({} : Rem).apps ++ [a] ∧
      a.cpuLimit = some (QUOTAS specDemo.resources).cpuLimit ∧
      a.memoryLimit = some (QUOTAS specDemo.resources).memoryLimit ∧
      a.name = metaDemo.name :=
  resource_limits_from_size_table.2.2.2.2.2 [] [] (fun _ => none) ⟨true, true⟩ {}
    metaDemo specDemo "demo" rfl (by unfold Rem.wf; decide)

/-- Helper: with every file either absent or parseable, the batch loop never
aborts and produces one result per file. -/
theorem processFiles_no_abort (orgs : List (String × OrgConfig))
    (prebuilt : List (String × String)) (secrets : String → Option String)
    (gh : GhEnv) :
    ∀ (files : List FileEntry) (s : Rem) (acc : List ProvisionResult),
      (∀ f ∈ files, f.present = true → f.parse.isOk = true) →
      (processFiles orgs prebuilt secrets gh s acc files).2.1 = none ∧
      (processFiles orgs prebuilt secrets gh s acc files).1.length
        = acc.length + files.length := by
  intro files
  induction files with
  | nil => intro s acc _; simp [processFiles]
  | cons f rest ih =>
      intro s acc hp
      have hrest : ∀ g ∈ rest, g.present = true → g.parse.isOk = true :=
        fun g hg => hp g (List.mem_cons_of_mem _ hg)
      rcases hpres : f.present with _ | _
      · have h2 := ih s (acc ++ [notFoundResult f.path]) hrest
        simp only [processFiles, hpres] at h2 ⊢
        simp only [Bool.false_eq_true, not_false_iff, if_true] at h2 ⊢
        refine ⟨h2.1, ?_⟩
        rw [h2.2]
        simp [List.length_append]
        omega
      · have hok := hp f (List.mem_cons_self f rest) hpres
        rcases hparse : f.parse with msg | config
        · rw [hparse] at hok; simp [Except.isOk, Except.toBool] at hok
        · rcases happ : applyParsedConfig orgs prebuilt secrets gh s config f.path with ⟨r, s2⟩
          have h2 := ih s2 (acc ++ [r]) hrest
          simp only [processFiles, hpres, hparse, happ] at h2 ⊢
          simp only [Bool.true_eq_false, not_true, if_false] at h2 ⊢
          refine ⟨h2.1, ?_⟩
          rw [h2.2]
          simp [List.length_append]
          omega

/-- Fixture: a manifest file that throws at YAML parse time. -/
def badFile : FileEntry :=
  { path := "apps/bad/provision.yaml", present := true,
    parse := .error "Failed to parse YAML: bad indentation" }

/-- Fixture: a well-formed Application manifest file. -/
def goodFile : FileEntry :=
  { path := "apps/demo/provision.yaml", present := true,
    parse := .ok { metadata := metaDemo, spec := .app specDemo } }

/-- Fixture: a parseable manifest of an unrecognized kind (its provisioning
fails but is captured as a per-manifest result). -/
def wrongKindFile : FileEntry :=
  { path := "apps/odd/provision.yaml", present := true,
    parse := .ok { metadata := { name := "odd", maintainer := "@m" }, spec := .unknownKind "Widget" } }

/-- C7 (counterexample): a manifest whose YAML fails to parse aborts the
whole batch — the following manifest, which on its own succeeds, is never
attempted (zero results are produced), contradicting "one manifest's failure
never prevents the remaining manifests from being attempted". -/
theorem batch_parse_abort_cex :
    (runMain [] [] (fun _ => none) ⟨false, false⟩ {} [badFile, goodFile]).1.results = [] ∧
    (runMain [] [] (fun _ => none) ⟨false, false⟩ {} [badFile, goodFile]).1.fatal
      = some "Failed to parse YAML: bad indentation" ∧
    (runMain [] [] (fun _ => none) ⟨false, false⟩ {} [badFile, goodFile]).1.exitCode = 1 ∧
    (runMain [] [] (fun _ => none) ⟨false, false⟩ {} [goodFile]).1.results.length = 1 ∧
    ((runMain [] [] (fun _ => none) ⟨false, false⟩ {} [goodFile]).1.results.map
      fun r => r.success) = [true] ∧
    (runMain [] [] (fun _ => none) ⟨false, false⟩ {} [goodFile]).1.exitCode = 0 := by
  decide

/-- C7 (amended): the driver processes the files strictly sequentially
(a left fold threading the remote state); provided every present file parses,
no failure aborts the batch: every file yields exactly one result and the
exit status is zero exactly when every result succeeded. -/
theorem batch_driver_characterization (orgs : List (String × OrgConfig))
    (prebuilt : List (String × String)) (secrets : String → Option String)
    (gh : GhEnv) (s : Rem) (files : List FileEntry)
    (hsch : s.schedule = [])
    (hparse : ∀ f ∈ files, f.present = true → f.parse.isOk = true) :
    (runMain orgs prebuilt secrets gh s files).1.connected = true ∧
    (runMain orgs prebuilt secrets gh s files).1.fatal = none ∧
    (runMain orgs prebuilt secrets gh s files).1.results.length = files.length ∧
    ((runMain orgs prebuilt secrets gh s files).1.exitCode = 0 ↔
      ∀ r ∈ (runMain orgs prebuilt secrets gh s files).1.results, r.success = true) ∧
    ((runMain orgs prebuilt secrets gh s files).1.exitCode = 0 ∨
      (runMain orgs prebuilt secrets gh s files).1.exitCode = 1) := by
  have hpf := processFiles_no_abort orgs prebuilt secrets gh files s [] hparse
  rcases hout : processFiles orgs prebuilt secrets gh s [] files with ⟨results, fatal, s1⟩
  rw [hout] at hpf
  simp only [List.length_nil, Nat.zero_add] at hpf
  obtain ⟨hfatal, hlen⟩ := hpf
  subst hfatal
  simp only [runMain, takeCall, hsch, hout]
  refine ⟨trivial, trivial, hlen, ?_, ?_⟩
  · rcases hany : results.any (fun r => !r.success) with _ | _
    · simp only [hany, Bool.false_eq_true, if_false]
      simp only [List.any_eq_false, Bool.not_eq_true'] at hany
      simp only [Nat.zero_eq, true_iff]
      intro r hr
      simpa using hany r hr
    · simp only [hany, if_true]
      simp only [List.any_eq_true] at hany
      obtain ⟨r, hr, hrs⟩ := hany
      simp only [Bool.not_eq_true'] at hrs
      constructor
      · intro h; exact absurd h one_ne_zero
      · intro hall; exact absurd (hall r hr) (by simp [hrs])
  · rcases hany : results.any (fun r => !r.success) with _ | _ <;> simp [hany]

/-- Witness for C7's amended theorem: a batch with one failing (unknown kind)
and one succeeding manifest — both attempted, exit status non-zero. -/
theorem batch_driver_characterization_witness :
    (runMain [] [] (fun _ => none) ⟨true, true⟩ {} [wrongKindFile, goodFile]).1.connected = true ∧
    (runMain [] [] (fun _ => none) ⟨true, true⟩ {} [wrongKindFile, goodFile]).1.fatal = none ∧
    (runMain [] [] (fun _ => none) ⟨true, true⟩ {} [wrongKindFile, goodFile]).1.results.length
      = [wrongKindFile, goodFile].length ∧
    ((runMain [] [] (fun _ => none) ⟨true, true⟩ {} [wrongKindFile, goodFile]).1.exitCode = 0 ↔
      ∀ r ∈ (runMain [] [] (fun _ => none) ⟨true, true⟩ {} [wrongKindFile, goodFile]).1.results,
        r.success = true) ∧
    ((runMain [] [] (fun _ => none) ⟨true, true⟩ {} [wrongKindFile, goodFile]).1.exitCode = 0 ∨
      (runMain [] [] (fun _ => none) ⟨true, true⟩ {} [wrongKindFile, goodFile]).1.exitCode = 1) :=
  batch_driver_characterization [] [] (fun _ => none) ⟨true, true⟩ {}
    [wrongKindFile, goodFile] rfl (by decide)

/-- An application spec with a github source owned by an owner off the
allow-list. -/
def specGit : AppSpec :=
  { source := .github { owner := "acme", repo := "app", branch := "release" },
    resources := .S, ports := [{ containerPort := 80 }],
    healthCheck := some { path := "/", port := 80 } }

/-- The auto-deploy outcome for a github source is the conjunction of the
allow-list gate and the two gh interactions. -/
theorem adcOf_github (g : GitHubSource) (spec : AppSpec) (gh : GhEnv)
    (h : spec.source = .github g) :
    adcOf spec gh = (canSetupAutoDeploy g.owner && gh.secretOk && gh.workflowOk) := by
  rw [adcOf, h]
  simp only
  rcases hcan : canSetupAutoDeploy g.owner with _ | _
  · simp [ensureDeploySecret, setupAutoDeploy, hcan]
  · simp only [ensureDeploySecret, setupAutoDeploy, hcan]
    simp only [Bool.not_true, Bool.true_and]
    rcases hsec : gh.secretOk with _ | _ <;> simp

/-- C8: auto-deploy provisioning is gated on the fixed owner allow-list
(`["tini-works"]`, case-insensitive): off-list owners get no secret install
and no workflow install; and when the remote accepts all reconciliation
calls, the run succeeds no matter how the auto-deploy phase turns out —
`autoDeployConfigured = some true` requires a github source with an
allow-listed owner and both gh interactions succeeding, and every failure of
that phase leaves `success = true` with `autoDeployConfigured = some false`. -/
theorem auto_deploy_best_effort :
    (∀ (owner : String) (gh : GhEnv), canSetupAutoDeploy owner = false →
        ensureDeploySecret owner gh = false ∧
        ∀ targetId, setupAutoDeploy owner targetId gh = false) ∧
    (∀ (orgs : List (String × OrgConfig)) (prebuilt : List (String × String))
        (secrets : String → Option String) (gh : GhEnv) (s : Rem)
        (meta : Metadata) (spec : AppSpec) (subdomain : String),
      s.schedule = [] → s.wf →
      (provisionApplication orgs prebuilt secrets gh s meta spec subdomain).1.success = true ∧
      ((provisionApplication orgs prebuilt secrets gh s meta spec subdomain).1.autoDeployConfigured
          = some true →
        ∃ g : GitHubSource, spec.source = .github g ∧ canSetupAutoDeploy g.owner = true ∧
          gh.secretOk = true ∧ gh.workflowOk = true) ∧
      (∀ g : GitHubSource, spec.source = .github g →
        (canSetupAutoDeploy g.owner = false ∨ gh.secretOk = false ∨ gh.workflowOk = false) →
        (provisionApplication orgs prebuilt secrets gh s meta spec subdomain).1.autoDeployConfigured
          = some false)) := by
  constructor
  · intro owner gh hcan
    refine ⟨by simp [ensureDeploySecret, hcan], ?_⟩
    intro targetId
    cases targetId <;> simp [setupAutoDeploy, hcan]
  · intro orgs prebuilt secrets gh s meta spec subdomain hsch hwf
    rw [provisionApplication_ok orgs prebuilt secrets gh s meta spec subdomain hsch hwf]
    refine ⟨rfl, ?_, ?_⟩
    · intro h
      simp only [provOkResult, Option.some.injEq] at h
      rcases hsrc : spec.source with g | d
      · rw [adcOf_github g spec gh hsrc] at h
        simp only [Bool.and_eq_true] at h
        exact ⟨g, rfl, h.1.1, h.1.2, h.2⟩
      · rw [adcOf, hsrc] at h
        simp at h
    · intro g hsrc hfail
      simp only [provOkResult, Option.some.injEq]
      rw [adcOf_github g spec gh hsrc]
      rcases hfail with hc | hc | hc <;> simp [hc]

/-- Witness for C8: a github source owned by an off-list owner still
reconciles successfully, with auto-deploy unset. -/
theorem auto_deploy_best_effort_witness :
    (ensureDeploySecret "acme" ⟨true, true⟩ = false ∧
      ∀ targetId, setupAutoDeploy "acme" targetId ⟨true, true⟩ = false) ∧
    ((provisionApplication [] [] (fun _ => none) ⟨true, true⟩ {} metaDemo
        specGit "demo").1.success = true ∧
      (provisionApplication [] [] (fun _ => none) ⟨true, true⟩ {} metaDemo
          specGit "demo").1.autoDeployConfigured = some false) :=
  ⟨auto_deploy_best_effort.1 "acme" ⟨true, true⟩ (by decide),
   (auto_deploy_best_effort.2 [] [] (fun _ => none) ⟨true, true⟩ {} metaDemo
      specGit "demo" rfl (by unfold Rem.wf; decide)).1,
   (auto_deploy_best_effort.2 [] [] (fun _ => none) ⟨true, true⟩ {} metaDemo
      specGit "demo" rfl (by unfold Rem.wf; decide)).2.2
     { owner := "acme", repo := "app", branch := "release" } rfl (Or.inl (by decide))⟩

/-- C9: each secretRef resolves from the process-wide environment variable
`SECRET_{ref.secret}`: the assembled variable list is exactly the static
entries followed by one `name=value` entry per resolvable ref; an absent
secret contributes a warning line and no entry, and with the remote
accepting its calls the reconciliation still succeeds for every secret
environment. -/
theorem secret_refs_resolution :
    (∀ (env : EnvSpec) (secrets : String → Option String),
        (buildEnvVars env secrets).1 =
          env.statics.map (fun kv => kv.1 ++ "=" ++ kv.2) ++
          env.secretRefs.filterMap (fun ref =>
            (secrets ("SECRET_" ++ ref.secret)).map fun v => ref.name ++ "=" ++ v)) ∧
    (∀ (env : EnvSpec) (secrets : String → Option String) (ref : SecretRef),
        ref ∈ env.secretRefs → secrets ("SECRET_" ++ ref.secret) = none →
        ("Secret " ++ ref.secret ++ " not found in environment") ∈ (buildEnvVars env secrets).2) ∧
    (∀ (orgs : List (String × OrgConfig)) (prebuilt : List (String × String))
        (secrets : String → Option String) (gh : GhEnv) (s : Rem)
        (meta : Metadata) (spec : AppSpec) (subdomain : String),
      s.schedule = [] → s.wf →
      (provisionApplication orgs prebuilt secrets gh s meta spec subdomain).1.success = true) := by
  have key : ∀ (secrets : String → Option String) (refs : List SecretRef)
      (acc : List String × List String),
      refs.foldl (fun (acc : List String × List String) ref =>
          match secrets ("SECRET_" ++ ref.secret) with
          | some v => (acc.1 ++ [ref.name ++ "=" ++ v], acc.2)
          | none => (acc.1, acc.2 ++ ["Secret " ++ ref.secret ++ " not found in environment"])) acc
      = (acc.1 ++ refs.filterMap (fun ref =>
            (secrets ("SECRET_" ++ ref.secret)).map fun v => ref.name ++ "=" ++ v),
         acc.2 ++ refs.filterMap (fun ref =>
            match secrets ("SECRET_" ++ ref.secret) with
            | some _ => none
            | none => some ("Secret " ++ ref.secret ++ " not found in environment"))) := by
    intro secrets refs
    induction refs with
    | nil => intro acc; simp
    | cons r rs ih =>
        intro acc
        rcases hr : secrets ("SECRET_" ++ r.secret) with _ | v <;>
          simp [List.foldl_cons, hr, ih, List.filterMap_cons]
  refine ⟨?_, ?_, ?_⟩
  · intro env secrets
    simp [buildEnvVars, key]
  · intro env secrets ref href hnone
    have : (buildEnvVars env secrets).2 = env.secretRefs.filterMap (fun ref =>
        match secrets ("SECRET_" ++ ref.secret) with
        | some _ => none
        | none => some ("Secret " ++ ref.secret ++ " not found in environment")) := by
      simp [buildEnvVars, key]
    rw [this]
    exact List.mem_filterMap.mpr ⟨ref, href, by rw [hnone]⟩
  · intro orgs prebuilt secrets gh s meta spec subdomain hsch hwf
    rw [provisionApplication_ok orgs prebuilt secrets gh s meta spec subdomain hsch hwf]
    rfl

/-- An env block with one static variable and one secret ref. -/
def envFixture : EnvSpec :=
  { statics := [("GREETING", "hi")],
    secretRefs := [{ name := "DB_URL", secret := "DATABASE_URL" }] }

/-- A spec carrying `envFixture`. -/
def specWithSecret : AppSpec :=
  { source := .docker { image := "nginx", tag := "1.25" },
    resources := .S, ports := [{ containerPort := 80 }],
    env := some envFixture }

/-- Witness for C9 with an unresolvable secret ref: the blob omits it, a
warning is recorded, and the concrete run still succeeds. -/
theorem secret_refs_resolution_witness :
    (buildEnvVars envFixture (fun _ => none)).1 =
      envFixture.statics.map (fun kv => kv.1 ++ "=" ++ kv.2) ++
      envFixture.secretRefs.filterMap (fun ref =>
        ((fun _ => (none : Option String)) ("SECRET_" ++ ref.secret)).map
          fun v => ref.name ++ "=" ++ v) ∧
    ("Secret " ++ "DATABASE_URL" ++ " not found in environment") ∈
      (buildEnvVars envFixture (fun _ => none)).2 ∧
    (provisionApplication [] [] (fun _ => none) ⟨true, true⟩ {} metaDemo
        specWithSecret "demo").1.success = true :=
  ⟨secret_refs_resolution.1 envFixture (fun _ => none),
   secret_refs_resolution.2.1 envFixture (fun _ => none)
      { name := "DB_URL", secret := "DATABASE_URL" } (by decide) rfl,
   secret_refs_resolution.2.2 [] [] (fun _ => none) ⟨true, true⟩ {} metaDemo
      specWithSecret "demo" rfl (by unfold Rem.wf; decide)⟩

/-- Stable sorts on a string key agree on any two enumeration orders of the
same entries, provided the keys are pairwise distinct. -/
theorem insertionSort_key_eq_of_perm {α : Type} (key : α → String)
    (l₁ l₂ : List α) (hp : l₁.Perm l₂) (hn : (l₁.map key).Nodup) :
    l₁.insertionSort (fun a b => strLeB (key a) (key b) = true)
      = l₂.insertionSort (fun a b => strLeB (key a) (key b) = true) := by
  haveI : IsTotal α (fun a b => strLeB (key a) (key b) = true) :=
    ⟨fun a b => charListLe_total (key a).data (key b).data⟩
  haveI : IsTrans α (fun a b => strLeB (key a) (key b) = true) :=
    ⟨fun a b c hab hbc => charListLe_trans _ _ _ hab hbc⟩
  haveI : IsAntisymm α
      (fun a b => (strLeB (key a) (key b) = true) ∧ key a ≠ key b) := by
    refine ⟨fun a b h1 h2 => ?_⟩
    have hd : (key a).data = (key b).data := charListLe_antisymm _ _ h1.1 h2.1
    exact absurd (String.ext hd) h1.2
  have hperm1 : (l₁.insertionSort (fun a b => strLeB (key a) (key b) = true)).Perm
      (l₂.insertionSort (fun a b => strLeB (key a) (key b) = true)) :=
    (List.perm_insertionSort _ l₁).trans (hp.trans (List.perm_insertionSort _ l₂).symm)
  have hn1 : ((l₁.insertionSort (fun a b => strLeB (key a) (key b) = true)).map key).Nodup :=
    (((List.perm_insertionSort _ l₁).map key).nodup_iff).mpr hn
  have hn2 : ((l₂.insertionSort (fun a b => strLeB (key a) (key b) = true)).map key).Nodup :=
    (((List.perm_insertionSort _ l₂).map key).nodup_iff).mpr ((hp.map key).nodup_iff.mp hn)
  have hss1 : (l₁.insertionSort (fun a b => strLeB (key a) (key b) = true)).Pairwise
      (fun a b => (strLeB (key a) (key b) = true) ∧ key a ≠ key b) :=
    (List.sorted_insertionSort _ l₁).and (List.pairwise_map.mp hn1)
  have hss2 : (l₂.insertionSort (fun a b => strLeB (key a) (key b) = true)).Pairwise
      (fun a b => (strLeB (key a) (key b) = true) ∧ key a ≠ key b) :=
    (List.sorted_insertionSort _ l₂).and (List.pairwise_map.mp hn2)
  exact List.eq_of_perm_of_sorted hperm1 hss1 hss2

/-- The dedup fold of `collectSecretBindings` keeps a subsequence of its
input. -/
theorem dedup_fold_sublist :
    ∀ (l : List SecretBinding) (acc : List SecretBinding × List (String × String)),
    ∃ l', (l.foldl dedupStep acc).1 = acc.1 ++ l' ∧ l'.Sublist l := by
  intro l
  induction l with
  | nil => intro acc; exact ⟨[], by simp, List.Sublist.refl []⟩
  | cons b bs ih =>
      intro acc
      rcases hc : acc.2.contains (b.envKey, b.secretName) with _ | _
      · obtain ⟨l', hl', hs⟩ := ih (acc.1 ++ [b], acc.2 ++ [(b.envKey, b.secretName)])
        refine ⟨b :: l', ?_, hs.cons₂ b⟩
        simp only [List.foldl_cons, dedupStep, hc, Bool.false_eq_true, if_false]
        rw [hl']
        simp
      · obtain ⟨l', hl', hs⟩ := ih acc
        refine ⟨l', ?_, hs.cons b⟩
        simp only [List.foldl_cons, dedupStep, hc, if_true]
        exact hl'

/-- The secret bindings list is emitted sorted by `envKey`. -/
theorem collectSecretBindings_sorted (apps : List AppConfig) :
    (collectSecretBindings apps).Pairwise
      (fun a b => strLeB a.envKey b.envKey = true) := by
  haveI : IsTrans SecretBinding (fun a b => strLeB a.envKey b.envKey = true) :=
    ⟨fun a b c hab hbc => charListLe_trans _ _ _ hab hbc⟩
  haveI : IsTotal SecretBinding (fun a b => strLeB a.envKey b.envKey = true) :=
    ⟨fun a b => charListLe_total a.envKey.data b.envKey.data⟩
  obtain ⟨l', hl', hs⟩ := dedup_fold_sublist
    ((apps.flatMap appBindings).insertionSort
      (fun a b => strLeB a.envKey b.envKey = true)) ([], [])
  have heq : collectSecretBindings apps = l' := by
    simp only [collectSecretBindings, hl']
    simp
  rw [heq]
  exact (List.sorted_insertionSort _ _).sublist hs

/-- Fixture app spec (nginx image). -/
def specNginx : AppSpec := { source := .docker { image := "nginx", tag := "1" }, resources := .S }

/-- Fixture app spec (redis image). -/
def specRedis : AppSpec := { source := .docker { image := "redis", tag := "1" }, resources := .S }

/-- A directory entry whose manifest is named `app`. -/
def entA : DirEntry := { isDir := true, provision := some { metadata := { name := "app", maintainer := "@a" }, spec := .app specNginx } }

/-- A clashing entry, also named `app` but with a different image. -/
def entB : DirEntry := { isDir := true, provision := some { metadata := { name := "app", maintainer := "@b" }, spec := .app specRedis } }

/-- An entry named `alpha`. -/
def entAlpha : DirEntry := { isDir := true, provision := some { metadata := { name := "alpha", maintainer := "@a" }, spec := .app specNginx } }

/-- An entry named `beta`. -/
def entBeta : DirEntry := { isDir := true, provision := some { metadata := { name := "beta", maintainer := "@b" }, spec := .app specRedis } }

/-- The generator options used by `generate-compose.ts`. -/
def genOpts : GeneratorOptions :=
  { domainSuffix := "apps.quickable.co", uiHost := "p.apps.quickable.co" }

/-- C10 (counterexample): with two manifests sharing `metadata.name`, the
compose YAML depends on the filesystem enumeration order — two enumerations
of the same entry set produce different bytes, because the later duplicate
overwrites the shared service entry. -/
theorem generator_order_dependent_cex :
    ([entA, entB] : List DirEntry).Perm [entB, entA] ∧
    (generateComposeBundle [] genOpts [entA, entB]).yaml ≠
      (generateComposeBundle [] genOpts [entB, entA]).yaml := by
  constructor
  · exact List.Perm.swap entB entA []
  · decide

/-- C10 (amended): for manifests with pairwise-distinct `metadata.name` the
generator is deterministic and independent of the directory enumeration
order — any two enumeration orders of the same entries yield equal results
(hence byte-identical YAML and equal appNames and secretBindings) — and
appNames, service keys, network keys and secret bindings are each emitted
sorted. -/
theorem generator_deterministic_of_distinct_names
    (orgs : List (String × OrgConfig)) (options : GeneratorOptions)
    (l₁ l₂ : List DirEntry) (hperm : l₁.Perm l₂)
    (hnodup : ((loadApps l₁).map fun a => a.metadata.name).Nodup) :
    generateComposeBundle orgs options l₁ = generateComposeBundle orgs options l₂ ∧
    (generateComposeBundle orgs options l₁).appNames.Pairwise
      (fun a b => strLeB a b = true) ∧
    (generateComposeBundle orgs options l₁).compose.services.Pairwise
      (fun p q => strLeB p.1 q.1 = true) ∧
    (generateComposeBundle orgs options l₁).compose.networks.Pairwise
      (fun p q => strLeB p.1 q.1 = true) ∧
    (generateComposeBundle orgs options l₁).secretBindings.Pairwise
      (fun a b => strLeB a.envKey b.envKey = true) := by
  constructor
  · have hfm : (l₁.filterMap entryToApp).Perm (l₂.filterMap entryToApp) :=
      hperm.filterMap entryToApp
    have hn' : ((l₁.filterMap entryToApp).map fun a => a.metadata.name).Nodup := by
      have hp2 := (List.perm_insertionSort
        (fun (a b : AppConfig) => strLeB a.metadata.name b.metadata.name = true)
        (l₁.filterMap entryToApp)).map (fun a => a.metadata.name)
      exact (hp2.nodup_iff).mp hnodup
    have hload : loadApps l₁ = loadApps l₂ := by
      unfold loadApps
      exact insertionSort_key_eq_of_perm (fun (a : AppConfig) => a.metadata.name)
        (l₁.filterMap entryToApp) (l₂.filterMap entryToApp) hfm hn'
    simp only [generateComposeBundle]
    rw [hload]
  · refine ⟨?_, ?_, ?_, collectSecretBindings_sorted _⟩
    · haveI : IsTrans String (fun a b => strLeB a b = true) :=
        ⟨fun a b c hab hbc => charListLe_trans _ _ _ hab hbc⟩
      haveI : IsTotal String (fun a b => strLeB a b = true) :=
        ⟨fun a b => charListLe_total a.data b.data⟩
      exact List.sorted_insertionSort _ _
    · haveI : IsTrans (String × ComposeServiceG) (fun p q => strLeB p.1 q.1 = true) :=
        ⟨fun a b c hab hbc => charListLe_trans _ _ _ hab hbc⟩
      haveI : IsTotal (String × ComposeServiceG) (fun p q => strLeB p.1 q.1 = true) :=
        ⟨fun a b => charListLe_total a.1.data b.1.data⟩
      exact List.sorted_insertionSort _ _
    · haveI : IsTrans (String × NetworkCfg) (fun p q => strLeB p.1 q.1 = true) :=
        ⟨fun a b c hab hbc => charListLe_trans _ _ _ hab hbc⟩
      haveI : IsTotal (String × NetworkCfg) (fun p q => strLeB p.1 q.1 = true) :=
        ⟨fun a b => charListLe_total a.1.data b.1.data⟩
      exact List.sorted_insertionSort _ _

/-- Witness for C10's amended theorem at two distinct-name entries in both
enumeration orders. -/
theorem generator_deterministic_witness :
    generateComposeBundle [] genOpts [entAlpha, entBeta]
        = generateComposeBundle [] genOpts [entBeta, entAlpha] ∧
    (generateComposeBundle [] genOpts [entAlpha, entBeta]).appNames.Pairwise
      (fun a b => strLeB a b = true) ∧
    (generateComposeBundle [] genOpts [entAlpha, entBeta]).compose.services.Pairwise
      (fun p q => strLeB p.1 q.1 = true) ∧
    (generateComposeBundle [] genOpts [entAlpha, entBeta]).compose.networks.Pairwise
      (fun p q => strLeB p.1 q.1 = true) ∧
    (generateComposeBundle [] genOpts [entAlpha, entBeta]).secretBindings.Pairwise
      (fun a b => strLeB a.envKey b.envKey = true) :=
  generator_deterministic_of_distinct_names [] genOpts [entAlpha, entBeta]
    [entBeta, entAlpha] (List.Perm.swap entBeta entAlpha []) (by decide)

end Provisioner






